import Mathlib

/-!
Shallow embedding of the distance/network engine of `bgc_networks.py`
(BiG-SCAPE development version), together with proofs settling the
frozen specification claims.

Modelling conventions:
* Python floats are modelled by exact real numbers (`ℝ`); values that the
  program computes by rational arithmetic only are kept in `ℚ` so that they
  stay executable.
* Python's IEEE infinity (produced by `float("inf")` and by the
  `logscore = float("inf")` sentinel) is modelled by `Option ℝ` with `none`
  standing for `+inf`.
* A Python function that can raise an exception on the modelled inputs
  (ZeroDivisionError, unbound local) is embedded with an `Option` result,
  `none` standing for the raised exception.
* File contents are modelled as `List Char`; a `files : String → List Char`
  argument stands for the file system written by earlier pipeline stages.
-/

namespace BGCNet

/-! ### Character-level model of pfs files (`write_pfs` / `get_domain_list`) -/

/-- Models Python's `str.split(" ")` with an explicit single-space separator:
splits at every space, keeping empty segments (so a trailing separator yields
a trailing empty segment, and `split` of the empty string is `[""]`). -/
def pySplitSpace : List Char → List (List Char)
  | [] => [[]]
  | c :: rest =>
    if c = ' ' then [] :: pySplitSpace rest
    else
      match pySplitSpace rest with
      | [] => [[c]]
      | h :: t => (c :: h) :: t

/-- Models Python's `file.readline()`: the first line of the contents,
including the terminating newline when one is present. -/
def readline (content : List Char) : List Char :=
  (content.takeWhile (fun c => c ≠ '\n')) ++ (content.dropWhile (fun c => c ≠ '\n')).take 1

/-- `write_pfs` (bgc_networks.py:515): writes every domain name followed by a
single space; the returned list is the resulting file content. -/
def write_pfs (domains : List String) : List Char :=
  (domains.map (fun d => d.data ++ [' '])).flatten

/-- `get_domain_list` (bgc_networks.py:769): reads the first line of the given
file and splits it on single spaces. -/
def get_domain_list (files : String → List Char) (filename : String) : List String :=
  (pySplitSpace (readline (files filename))).map (fun cs => String.mk cs)

/-! ### Domain overlap resolution (`check_overlap`) -/

/-- One row of the pfd matrix built by `domtable_parser`:
`[gbk, score, gene id, env coord from, env coord to, strand, pfam id,
domain name, cds header]`.  The score is `float(row[1])`, the coordinates
`int(row[3])`, `int(row[4])`. -/
structure PfdRow where
  gbk : String
  score : ℚ
  gene : String
  start : ℤ
  stop : ℤ
  strand : String
  pfamId : String
  name : String
  cds : String
deriving DecidableEq

/-- `no_overlap` (bgc_networks.py:437). -/
def no_overlap (locA1 locA2 locB1 locB2 : ℤ) : Bool :=
  if locA1 < locB1 ∧ locA2 < locB1 then true
  else if locA1 > locB2 ∧ locA2 > locB2 then true
  else false

/-- `overlap_perc` (bgc_networks.py:447). -/
def overlap_perc (ov len_seq : ℤ) : ℚ := (ov : ℚ) / (len_seq : ℚ)

/-- `overlap` (bgc_networks.py:452): `sum_len - total_region`. -/
def overlap (locA1 locA2 locB1 locB2 : ℤ) : ℤ :=
  let cor1 := if locA1 < locB1 then locA1 else locB1
  let cor2 := if locA2 > locB2 then locA2 else locB2
  ((locA2 - locA1) + (locB2 - locB1)) - (cor2 - cor1)

/-- The overlap test applied to a pair of rows inside `check_overlap`
(bgc_networks.py:487-494): same CDS header, intervals intersect, and the
overlap fraction of either hit exceeds the cutoff. -/
def overlapCond (r1 r2 : PfdRow) (cutoff : ℚ) : Prop :=
  r1.cds = r2.cds ∧ no_overlap r1.start r1.stop r2.start r2.stop = false ∧
    (overlap_perc (overlap r1.start r1.stop r2.start r2.stop) (r1.stop - r1.start) > cutoff ∨
     overlap_perc (overlap r1.start r1.stop r2.start r2.stop) (r2.stop - r2.start) > cutoff)

instance (r1 r2 : PfdRow) (c : ℚ) : Decidable (overlapCond r1 r2 c) := by
  unfold overlapCond; infer_instance

/-- The row appended to `delete_list` by one iteration of the double loop of
`check_overlap` (bgc_networks.py:482-498): positions must differ, the overlap
test must fire, and the strictly lower-scoring row is marked (nothing is
marked on a score tie). -/
def pairLoser (cutoff : ℚ) (p q : ℕ × PfdRow) : Option PfdRow :=
  if p.1 ≠ q.1 ∧ overlapCond p.2 q.2 cutoff then
    if p.2.score > q.2.score then some q.2
    else if p.2.score < q.2.score then some p.2
    else none
  else none

/-- The `delete_list` built by the all-pairs double loop of `check_overlap`. -/
def deleteList (m : List PfdRow) (cutoff : ℚ) : List PfdRow :=
  m.enum.flatMap (fun p => m.enum.filterMap (fun q => pairLoser cutoff p q))

/-- `check_overlap` (bgc_networks.py:471-512): build the delete list, remove
each of its entries from the matrix (`list.remove`, first occurrence, a
missing value being ignored), sort the survivors by start coordinate
(Python's stable sort), and collect the domain names. -/
def check_overlap (m : List PfdRow) (cutoff : ℚ) : List PfdRow × List String :=
  let afterDelete := (deleteList m cutoff).foldl (fun acc r => acc.erase r) m
  let sortedRows := List.insertionSort (fun a b : PfdRow => a.start ≤ b.start) afterDelete
  (sortedRows, sortedRows.map (fun r => r.name))

/-- A row that some iteration of the `check_overlap` double loop appends to
`delete_list`: some other row on the same CDS overlaps it beyond the cutoff
in the orientation checked by that iteration, and has strictly greater score
(two disjuncts for the row acting as `row1` or as `row2`). -/
def markedForDelete (m : List PfdRow) (c : ℚ) (r : PfdRow) : Prop :=
  ∃ w ∈ m, (overlapCond r w c ∧ r.score < w.score) ∨ (overlapCond w r c ∧ r.score < w.score)

/-! ### Goodman-Kruskal synteny score and `Distance_modified` -/

/-- The set of neighbourhood pairs built inside `calculate_GK`
(bgc_networks.py:372): indices `i < len(A) - nbhood`, `i+1 ≤ j ≤ i+nbhood-1`.
The `getD` default is never reached because `j ≤ len(A) - 2` there. -/
def gkPairs (A : List String) (nbhood : ℕ) : Finset (String × String) :=
  ((List.range (A.length - nbhood)).flatMap (fun i =>
    (List.range' (i + 1) (nbhood - 1)).map (fun j => (A.getD i "", A.getD j "")))).toFinset

/-- The count `Ns` of concordant pairs in `calculate_GK` (bgc_networks.py:377):
pairs of `allPairs` lying identically oriented in both pair sets. -/
def gkNs (A B : List String) (nbhood : ℕ) : ℕ :=
  ((gkPairs A nbhood ∪ gkPairs B nbhood).filter
    (fun p => p ∈ gkPairs A nbhood ∧ p ∈ gkPairs B nbhood)).card

/-- The count `Nr` of discordant pairs in `calculate_GK`
(bgc_networks.py:378-379): pairs of `allPairs` not counted in `Ns` that occur
reversed between the two pair sets (either `elif` branch). -/
def gkNr (A B : List String) (nbhood : ℕ) : ℕ :=
  ((gkPairs A nbhood ∪ gkPairs B nbhood).filter
    (fun p => ¬(p ∈ gkPairs A nbhood ∧ p ∈ gkPairs B nbhood) ∧
      ((p ∈ gkPairs A nbhood ∧ p.swap ∈ gkPairs B nbhood) ∨
        (p.swap ∈ gkPairs A nbhood ∧ p ∈ gkPairs B nbhood)))).card

/-- `calculate_GK` (bgc_networks.py:368-386). -/
def calculate_GK (A B : List String) (nbhood : ℕ) : ℚ :=
  if 1 < (A.toFinset ∩ B.toFinset).card then
    let Ns := gkNs A B nbhood
    let Nr := gkNr A B nbhood
    let gamma : ℚ := if Nr + Ns = 0 then 0 else |(Nr : ℚ) - (Ns : ℚ)| / ((Nr : ℚ) + (Ns : ℚ))
    (1 + gamma) / 2
  else 0

/-- The `Jaccardw`, `DDSw`, `GKw` weight globals of `bgc_networks.py`
(CLI options, defaults 0.4 / 0.2 / 0.4). -/
structure Weights where
  J : ℚ
  D : ℚ
  G : ℚ

/-- The default weights 0.4, 0.2, 0.4. -/
def defaultWeights : Weights := ⟨2/5, 1/5, 2/5⟩

/-- The always-empty `repeats` list of `Distance_modified` (bgc_networks.py:394). -/
def repeatsList : List String := []

/-- The intersection cardinality `len(set(A) & set(B))` used by both the
modified Jaccard index and the `calculate_GK` guard. -/
def interCard (A B : List String) : ℕ := (A.toFinset ∩ B.toFinset).card

/-- The modified Jaccard index of `Distance_modified` (bgc_networks.py:407):
`|∩| / (2·min(|set A|, |set B|) − |∩|)` (integer arithmetic until the final
float division, as in the source). -/
def jaccardModified (A B : List String) : ℚ :=
  (interCard A B : ℚ) /
    ((2 * min A.toFinset.card B.toFinset.card : ℕ) - (interCard A B : ℚ))

/-- The integer numerator `DDS` accumulated at bgc_networks.py:414. -/
def ddsNum (A B : List String) : ℤ :=
  ∑ p ∈ (A ++ B).toFinset, |(A.count p : ℤ) - (B.count p : ℤ)|

/-- The integer denominator `S` accumulated at bgc_networks.py:415. -/
def ddsDen (A B : List String) : ℕ :=
  ∑ p ∈ (A ++ B).toFinset, max (A.count p) (B.count p)

/-- The domain-duplication ratio of `Distance_modified` (bgc_networks.py:416):
the quantity `DDS/S` that is subsequently fed into `exp(-·)`. -/
def ddsArg (A B : List String) : ℚ := (ddsNum A B : ℚ) / (ddsDen A B : ℚ)

/-- The body of `Distance_modified` after the repeat filtering
(bgc_networks.py:404-434): empty-profile guard, modified Jaccard, duplication
score, both-orientation Goodman-Kruskal maximum, weighted combination, clamp
at 0. -/
noncomputable def distanceBody (w : Weights) (A B : List String) (nbhood : ℕ) : ℝ :=
  if A.length = 0 ∨ B.length = 0 then 1
  else
    let Jaccard := jaccardModified A B
    let DDS : ℝ := Real.exp (-((ddsArg A B : ℚ) : ℝ))
    let GK := max (calculate_GK A B nbhood) (calculate_GK A.reverse B nbhood)
    let Distance : ℝ := 1 - (w.J : ℝ) * (Jaccard : ℝ) - (w.D : ℝ) * DDS - (w.G : ℝ) * (GK : ℝ)
    if Distance < 0 then 0 else Distance

/-- `Distance_modified` (bgc_networks.py:390-434).  A repeat flag other than
0 or 1 leaves the locals `A`, `B` unbound in the source (an UnboundLocalError),
modelled by `none`. -/
noncomputable def Distance_modified (w : Weights) (clusterA clusterB : List String)
    (rep nbhood : ℕ) : Option ℝ :=
  if rep = 1 then some (distanceBody w clusterA clusterB nbhood)
  else if rep = 0 then
    some (distanceBody w (clusterA.filter (fun i => !(repeatsList.contains i)))
      (clusterB.filter (fun j => !(repeatsList.contains j))) nbhood)
  else none

/-! ### Sequence-distance mode (`CompareTwoClusters`) -/

/-- One entry of the `BGCs` global: the per-cluster dict mapping a general
domain name to the list of specific domain instance ids
(bgc_networks.py:862-867). -/
structure BGC where
  doms : Finset String
  inst : String → List String

/-- The per-cluster instance lookup with the source's `try/except KeyError`
defaulting to `[]` (bgc_networks.py:220-223). -/
def instOf (c : BGC) (d : String) : List String :=
  if d ∈ c.doms then c.inst d else []

/-- Python's `tuple(sorted([x, y]))` on two strings. -/
def sortPair (x y : String) : String × String :=
  if x ≤ y then (x, y) else (y, x)

/-- One DMS lookup `1 - DMS[domain][pair][0]` with the `except KeyError`
fallback `1 - 0.1` (bgc_networks.py:226-227, 241-242).  The `DMS` argument
models the two-level dict as a single optional lookup on the sorted pair. -/
def dmsLookup (DMS : String → String × String → Option ℚ) (d x y : String) : ℚ :=
  1 - ((DMS d (sortPair x y)).getD (1/10))

/-- A single cell assignment `M[i, j] = v` on a matrix represented as a
total function. -/
def matUpdate (M : ℕ → ℕ → ℚ) (i j : ℕ) (v : ℚ) : ℕ → ℕ → ℚ :=
  fun a b => if a = i ∧ b = j then v else M a b

/-- The list of `(indices, value)` assignments performed by the matrix loop
of `CompareTwoClusters` (bgc_networks.py:238-244): `ja` ranges over the
indices of `seta` and `jb` over `xrange(ja, len(setb))`; each iteration
assigns the looked-up dissimilarity. -/
def matrixUpdates (DMS : String → String × String → Option ℚ) (d : String)
    (seta setb : List String) : List ((ℕ × ℕ) × ℚ) :=
  (List.range seta.length).flatMap (fun ja =>
    (List.range' ja (setb.length - ja)).map (fun jb =>
      ((ja, jb), dmsLookup DMS d (seta.getD ja "") (setb.getD jb ""))))

/-- The `DistanceMatrix` of `CompareTwoClusters`: start from `np.zeros` and
perform each update at `[ja, jb]` and mirrored at `[jb, ja]`. -/
def buildDistanceMatrix (DMS : String → String × String → Option ℚ) (d : String)
    (seta setb : List String) : ℕ → ℕ → ℚ :=
  (matrixUpdates DMS d seta setb).foldl
    (fun M u => matUpdate (matUpdate M u.1.1 u.1.2 u.2) u.1.2 u.1.1 u.2) (fun _ _ => 0)

/-- The contract of the Munkres (Hungarian) solver used at
bgc_networks.py:245-247: the minimum, over all one-to-one assignments of an
`N×N` cost matrix, of the total assigned cost. -/
def minAssignCost (N : ℕ) (M : ℕ → ℕ → ℚ) : ℚ :=
  Finset.univ.inf' ⟨1, Finset.mem_univ 1⟩
    (fun σ : Equiv.Perm (Fin N) => ∑ i : Fin N, M (i : ℕ) ((σ i : ℕ)))

/-- The `(DDS increment, S increment)` contributed by one domain family in
the loop of `CompareTwoClusters` (bgc_networks.py:218-249): single instances
on both sides use one DMS lookup, a lone instance on one side contributes
`(1, 1)`, and otherwise the assignment-problem branch runs on the
`max(|seta|, |setb|)`-sized matrix. -/
def domContribution (DMS : String → String × String → Option ℚ) (d : String)
    (seta setb : List String) : ℚ × ℚ :=
  if seta.length = 1 ∧ setb.length = 1 then
    (dmsLookup DMS d (seta.getD 0 "") (setb.getD 0 ""), 1)
  else if seta.length + setb.length = 1 then (1, 1)
  else
    let N := max seta.length setb.length
    (minAssignCost N (buildDistanceMatrix DMS d seta setb), (N : ℚ))

/-- `CompareTwoClusters` (bgc_networks.py:205-259).  `none` models the
ZeroDivisionError raised when the Jaccard denominator or the accumulator `S`
is zero. -/
noncomputable def CompareTwoClusters (DMS : String → String × String → Option ℚ)
    (A B : BGC) : Option ℝ :=
  let interCard : ℚ := ((A.doms ∩ B.doms).card : ℚ)
  let jDen : ℚ := (A.doms.card : ℚ) + (B.doms.card : ℚ) - interCard
  if jDen = 0 then none
  else
    let Jaccard : ℚ := interCard / jDen
    let DDSsum : ℚ := ∑ d ∈ A.doms ∪ B.doms, (domContribution DMS d (instOf A d) (instOf B d)).1
    let S : ℚ := ∑ d ∈ A.doms ∪ B.doms, (domContribution DMS d (instOf A d) (instOf B d)).2
    if S = 0 then none
    else some (1 - 36/100 * (Jaccard : ℝ) - 64/100 * Real.exp (-(((DDSsum / S : ℚ)) : ℝ)))

/-! ### Network assembly (`generate_network` / `write_network_matrix`) -/

/-- The distance-method selector string of `generate_network`. -/
inductive DistMethod
  | seqdist
  | domain_dist

/-- One row of the network matrix (bgc_networks.py:188-189).  The fields hold
the values whose string renderings the source stores:
cluster names, group labels, `str(logscore)`, `str(dist)`,
`str((1-dist)**2)`.  `logscore = none` models the `float("inf")` sentinel. -/
structure NetworkRow where
  c1 : String
  c2 : String
  g1 : String
  g2 : String
  logscore : Option ℝ
  dist : ℝ
  sqsim : ℝ

/-- Builds one network row (bgc_networks.py:182-189): the log score is
`float("inf")` when the distance is 0 and `-log2(dist)` otherwise. -/
noncomputable def mkRow (grp : String → String) (c1 c2 : String) (d : ℝ) : NetworkRow :=
  ⟨c1, c2, grp c1, grp c2,
    if d = 0 then none else some (-(Real.logb 2 d)), d, (1 - d) ^ 2⟩

/-- The unordered-pair enumeration of `generate_network`
(bgc_networks.py:156-173): a work queue from which each `cluster1` is removed
before pairing it with every remaining `cluster2`. -/
def listPairs : List String → List (String × String)
  | [] => []
  | c :: rest => (rest.map (fun c2 => (c, c2))) ++ listPairs rest

/-- The unsorted `network_matrix` accumulated by the pair loop of
`generate_network`; `none` propagates a distance computation that raised. -/
noncomputable def networkRows (dist : String → String → Option ℝ)
    (grp : String → String) : List (String × String) → Option (List NetworkRow)
  | [] => some []
  | p :: ps =>
    match dist p.1 p.2, networkRows dist grp ps with
    | some d, some rest => some (mkRow grp p.1 p.2 d :: rest)
    | _, _ => none

/-- Models CPython's `str()` on the float values that occur in this
development: `float("inf")` renders as `"inf"`, and a float holding a
nonnegative integer `n` renders as the decimal digits of `n` followed by
`".0"`.  Renderings of other values are not modelled (no claim depends on
them) and are mapped to a placeholder. -/
noncomputable def pyFloatRepr : Option ℝ → List Char
  | none => ['i', 'n', 'f']
  | some v =>
    letI : Decidable (∃ n : ℕ, v = (n : ℝ)) := Classical.propDecidable _
    if h : ∃ n : ℕ, v = (n : ℝ) then (Nat.repr h.choose).data ++ ['.', '0']
    else ['?']

/-- Python 2's `<=` on two byte strings: lexicographic comparison of the
character codes. -/
def charListLe : List Char → List Char → Bool
  | [], _ => true
  | _ :: _, [] => false
  | a :: as, b :: bs => if a = b then charListLe as bs else decide (a < b)

/-- The sort at bgc_networks.py:199: Python's stable `sorted` with
`key=lambda e: e[4]`, i.e. by the *string rendering* of the log score. -/
noncomputable def sortNetworkMatrix (rows : List NetworkRow) : List NetworkRow :=
  List.insertionSort
    (fun a b => charListLe (pyFloatRepr a.logscore) (pyFloatRepr b.logscore) = true) rows

/-- `generate_network` (bgc_networks.py:152-200), parameterised by the
pairwise distance oracle (the dispatch on `dist_method` is
`distDispatch` below): build one row per unordered pair and sort by the
string rendering of the log score. -/
noncomputable def generate_network (dist : String → String → Option ℝ)
    (bgc_list : List String) (grp : String → String) : Option (List NetworkRow) :=
  (networkRows dist grp (listPairs bgc_list)).map sortNetworkMatrix

/-- The `dist_method` dispatch inside the pair loop of `generate_network`
(bgc_networks.py:177-180): `seqdist` consults the `BGCs`/`DMS` globals,
`domain_dist` reads the two `.pfs` files from the output folder and calls
`Distance_modified(…, 0, 4)`. -/
noncomputable def distDispatch (w : Weights) (BGCs : String → BGC)
    (DMS : String → String × String → Option ℚ) (files : String → List Char)
    (folder : String) : DistMethod → String → String → Option ℝ
  | .seqdist => fun c1 c2 => CompareTwoClusters DMS (BGCs c1) (BGCs c2)
  | .domain_dist => fun c1 c2 =>
      Distance_modified w
        (get_domain_list files (folder ++ ("/") ++ c1 ++ (".pfs")))
        (get_domain_list files (folder ++ ("/") ++ c2 ++ (".pfs"))) 0 4

/-- Python's `float(row[4]) > float(cutoff)` where `row[4]` may be `"inf"`:
infinity exceeds every cutoff. -/
def pyFloatGt : Option ℝ → ℝ → Prop
  | none, _ => True
  | some x, c => c < x

noncomputable instance (o : Option ℝ) (c : ℝ) : Decidable (pyFloatGt o c) :=
  match o with
  | none => .isTrue trivial
  | some x => inferInstanceAs (Decidable (c < x))

/-- `write_network_matrix` (bgc_networks.py:143-150): the list of rows
written to the network file, i.e. the rows whose column 4 (the log score)
strictly exceeds the cutoff, in their original order. -/
noncomputable def write_network_matrix : List NetworkRow → ℝ → List NetworkRow
  | [], _ => []
  | r :: rest, c =>
      if pyFloatGt r.logscore c then r :: write_network_matrix rest c
      else write_network_matrix rest c

/-! ### Helper lemmas -/

lemma pySplitSpace_ne_nil (l : List Char) : pySplitSpace l ≠ [] := by
  induction l with
  | nil => simp [pySplitSpace]
  | cons c rest ih =>
    rw [pySplitSpace]
    by_cases hc : c = ' '
    · simp [hc]
    · simp only [hc, if_false]
      cases hr : pySplitSpace rest with
      | nil => simp
      | cons a t => simp

lemma pySplitSpace_append (cs rest : List Char) (h : ∀ c ∈ cs, c ≠ ' ') :
    pySplitSpace (cs ++ rest) =
      (cs ++ (pySplitSpace rest).headD []) :: (pySplitSpace rest).tail := by
  induction cs with
  | nil =>
    simp only [List.nil_append]
    cases hr : pySplitSpace rest with
    | nil => exact absurd hr (pySplitSpace_ne_nil rest)
    | cons a t => simp
  | cons c cs ih =>
    have hc : c ≠ ' ' := h c (by simp)
    rw [List.cons_append, pySplitSpace]
    simp only [hc, if_false]
    rw [ih (fun x hx => h x (by simp [hx]))]
    simp

lemma pySplitSpace_write_pfs (l : List String) (h : ∀ d ∈ l, ∀ c ∈ d.data, c ≠ ' ') :
    pySplitSpace (write_pfs l) = l.map (fun d => d.data) ++ [[]] := by
  induction l with
  | nil => rfl
  | cons d rest ih =>
    have hw : write_pfs (d :: rest) = d.data ++ (' ' :: write_pfs rest) := by
      simp [write_pfs]
    rw [hw, pySplitSpace_append _ _ (fun c hc => h d (by simp) c hc)]
    rw [show pySplitSpace (' ' :: write_pfs rest) = [] :: pySplitSpace (write_pfs rest) by
      rw [pySplitSpace]; simp]
    simp only [List.headD_cons, List.tail_cons, List.append_nil]
    rw [ih (fun x hx c hc => h x (by simp [hx]) c hc)]
    simp

lemma readline_eq_self (l : List Char) (h : ∀ c ∈ l, c ≠ '\n') : readline l = l := by
  unfold readline
  have ht : l.takeWhile (fun c => c ≠ '\n') = l := by
    rw [List.takeWhile_eq_self_iff]
    intro x hx
    simpa using h x hx
  have hd : l.dropWhile (fun c => c ≠ '\n') = [] := by
    rw [List.dropWhile_eq_nil_iff]
    intro x hx
    simpa using h x hx
  rw [ht, hd]
  simp

/-! ### Claim C10 -/

/-- C10: for every pair of domain lists and every neighborhood width, the
repeat flag has no effect: `Distance_modified(A, B, 0, nbhood)` equals
`Distance_modified(A, B, 1, nbhood)`, because the internal `repeats` list is
always empty, so the repeat-0 filtering keeps every domain. -/
theorem C10_repeat_flag_no_effect (w : Weights) (A B : List String) (nbhood : ℕ) :
    Distance_modified w A B 0 nbhood = Distance_modified w A B 1 nbhood := by
  simp [Distance_modified, repeatsList]

/-! ### Claim C9 -/

/-- C9: writing a nonempty list of (space- and newline-free) domain names
with `write_pfs` and reading the file back with `get_domain_list` returns the
original list with one extra empty-string element appended, so every profile
read from a `.pfs` file contains the spurious empty-string domain. -/
theorem C9_pfs_roundtrip_appends_empty (l : List String) (_hne : l ≠ [])
    (h : ∀ d ∈ l, ∀ c ∈ d.data, c ≠ ' ' ∧ c ≠ '\n') (fname : String) :
    get_domain_list (fun _ => write_pfs l) fname = l ++ [""] ∧
      "" ∈ get_domain_list (fun _ => write_pfs l) fname := by
  have hmain : get_domain_list (fun _ => write_pfs l) fname = l ++ [""] := by
    unfold get_domain_list
    rw [readline_eq_self]
    · rw [pySplitSpace_write_pfs l (fun d hd c hc => (h d hd c hc).1)]
      rw [List.map_append, List.map_map]
      have h1 : (fun cs => String.mk cs) ∘ (fun d : String => d.data) = id := rfl
      rw [h1, List.map_id]
      have h2 : ([[]] : List (List Char)).map (fun cs => String.mk cs) = [""] := by decide
      rw [h2]
    · intro c hc
      simp only [write_pfs, List.mem_flatten, List.mem_map] at hc
      obtain ⟨cs, ⟨d, hd, rfl⟩, hcs⟩ := hc
      rcases List.mem_append.1 hcs with hin | hin
      · exact (h d hd c hin).2
      · simp only [List.mem_singleton] at hin
        subst hin
        decide
  exact ⟨hmain, by rw [hmain]; simp⟩

/-- Witness for C9 at a concrete input. -/
theorem C9_pfs_roundtrip_appends_empty_witness :
    get_domain_list (fun _ => write_pfs ["AB", "CD"]) "f" = ["AB", "CD", ""] :=
  (C9_pfs_roundtrip_appends_empty ["AB", "CD"] (by decide)
    (by decide) "f").1

/-! ### Claim C8: overlap resolution -/

lemma count_foldl_erase (dl : List PfdRow) :
    ∀ (m : List PfdRow) (r : PfdRow),
      (dl.foldl (fun acc x => acc.erase x) m).count r = m.count r - dl.count r := by
  induction dl with
  | nil => intro m r; simp
  | cons x dl ih =>
    intro m r
    rw [List.foldl_cons, ih, List.count_erase, List.count_cons, Nat.sub_sub]
    congr 1
    by_cases hxr : x = r
    · subst hxr; simp [Nat.add_comm]
    · have h1 : (x == r) = false := by simpa using hxr
      have h2 : (r == x) = false := by simpa using Ne.symm hxr
      simp [h1, h2]

lemma count_flatMap_ge_of_mem (l : List (ℕ × PfdRow)) (f : ℕ × PfdRow → List PfdRow)
    (p₀ : ℕ × PfdRow) (hp : p₀ ∈ l) (r : PfdRow) :
    (f p₀).count r ≤ (l.flatMap f).count r := by
  induction l with
  | nil => cases hp
  | cons x xs ih =>
    rw [List.flatMap_cons, List.count_append]
    rcases List.mem_cons.1 hp with rfl | hmem
    · exact Nat.le_add_right _ _
    · exact le_trans (ih hmem) (Nat.le_add_left _ _)

lemma count_flatMap_ge_countP (f : ℕ × PfdRow → List PfdRow) (r : PfdRow) :
    ∀ l : List (ℕ × PfdRow), (∀ p ∈ l, p.2 = r → 1 ≤ (f p).count r) →
      l.countP (fun p => p.2 == r) ≤ (l.flatMap f).count r := by
  intro l
  induction l with
  | nil => simp
  | cons x xs ih =>
    intro h
    rw [List.flatMap_cons, List.count_append, List.countP_cons]
    have hxs := ih (fun p hp hpr => h p (by simp [hp]) hpr)
    by_cases hx : x.2 = r
    · have h1 := h x (by simp) hx
      have h2 : (x.2 == r) = true := by simpa using hx
      simp only [h2, if_true]
      omega
    · have h2 : (x.2 == r) = false := by simpa using hx
      simp only [h2, Bool.false_eq_true, if_false]
      omega

lemma countP_enumFrom_eq_count (r : PfdRow) :
    ∀ (m : List PfdRow) (n : ℕ),
      (m.enumFrom n).countP (fun p => p.2 == r) = m.count r := by
  intro m
  induction m with
  | nil => intro n; simp
  | cons x xs ih =>
    intro n
    rw [List.enumFrom_cons, List.countP_cons, ih (n + 1), List.count_cons]

lemma exists_mem_enum_of_mem (m : List PfdRow) (w : PfdRow) (hw : w ∈ m) :
    ∃ j, (j, w) ∈ m.enum := by
  obtain ⟨j, hj, hget⟩ := List.getElem_of_mem hw
  exact ⟨j, List.mk_mem_enum_iff_getElem?.2 (by simp [List.getElem?_eq_getElem hj, hget])⟩

lemma enum_functional (m : List PfdRow) (i : ℕ) (a b : PfdRow)
    (ha : (i, a) ∈ m.enum) (hb : (i, b) ∈ m.enum) : a = b := by
  rw [List.mk_mem_enum_iff_getElem?] at ha hb
  rw [ha] at hb
  exact Option.some_injective _ hb

lemma count_deleteList_ge (m : List PfdRow) (c : ℚ) (r : PfdRow)
    (h : markedForDelete m c r) : m.count r ≤ (deleteList m c).count r := by
  obtain ⟨w, hw, hcase⟩ := h
  have hne : r ≠ w := fun he => absurd (he ▸ hcase.elim And.right And.right) (lt_irrefl _)
  obtain ⟨j, hj⟩ := exists_mem_enum_of_mem m w hw
  rcases hcase with ⟨hcond, hsc⟩ | ⟨hcond, hsc⟩
  · -- r is marked as the lower-scoring row1 in iterations (copy-of-r, w)
    rw [deleteList, ← countP_enumFrom_eq_count r m 0]
    apply count_flatMap_ge_countP
    intro p hp hpr
    rw [Nat.one_le_iff_ne_zero, ← Nat.pos_iff_ne_zero, List.count_pos_iff]
    rw [List.mem_filterMap]
    refine ⟨(j, w), hj, ?_⟩
    have hij : p.1 ≠ j := by
      intro he
      exact hne (by
        have := enum_functional m j r w (by rw [← he, ← hpr]; exact hp) hj
        exact this)
    rw [pairLoser, if_pos ⟨hij, by rw [hpr]; exact hcond⟩]
    rw [if_neg (by rw [hpr]; exact not_lt_of_lt hsc), if_pos (by rw [hpr]; exact hsc), hpr]
  · -- r is marked as the lower-scoring row2 in the iteration (w, copy-of-r)
    rw [deleteList]
    refine le_trans ?_ (count_flatMap_ge_of_mem m.enum _ (j, w) hj r)
    rw [← countP_enumFrom_eq_count r m 0]
    have : ∀ l : List (ℕ × PfdRow), (∀ p ∈ l, p.2 = r → p.1 ≠ j) →
        l.countP (fun p => p.2 == r) ≤
          (l.filterMap (fun q => pairLoser c (j, w) q)).count r := by
      intro l
      induction l with
      | nil => simp
      | cons x xs ih =>
        intro hgood
        rw [List.countP_cons]
        by_cases hx : x.2 = r
        · have h2 : (x.2 == r) = true := by simpa using hx
          rw [h2, List.filterMap_cons]
          have hfire : pairLoser c (j, w) x = some r := by
            rw [pairLoser, if_pos ⟨(hgood x (by simp) hx).symm, by rw [hx]; exact hcond⟩]
            rw [if_pos (by rw [hx]; exact hsc), hx]
          rw [hfire, List.count_cons]
          have := ih (fun p hp hpr => hgood p (by simp [hp]) hpr)
          simp only [beq_self_eq_true, if_true]
          omega
        · have h2 : (x.2 == r) = false := by simpa using hx
          simp only [h2, Bool.false_eq_true, if_false, List.filterMap_cons]
          have hrec := ih (fun p hp hpr => hgood p (by simp [hp]) hpr)
          cases hfx : pairLoser c (j, w) x with
          | none => simpa using hrec
          | some y =>
            rw [List.count_cons]
            omega
    refine this m.enum ?_
    intro p hp hpr he
    exact hne (enum_functional m j r w (by rw [← he, ← hpr]; exact hp) hj)

lemma retained_not_marked (m : List PfdRow) (c : ℚ) (r : PfdRow)
    (hr : r ∈ (check_overlap m c).1) : ¬ markedForDelete m c r := by
  intro hmark
  have hmem : r ∈ (deleteList m c).foldl (fun acc x => acc.erase x) m := by
    have := hr
    unfold check_overlap at this
    simpa using this
  have hcount : 0 < ((deleteList m c).foldl (fun acc x => acc.erase x) m).count r :=
    List.count_pos_iff.2 hmem
  rw [count_foldl_erase] at hcount
  have := count_deleteList_ge m c r hmark
  omega

/-- C8 (amended): any two rows retained by `check_overlap` that share a CDS
and overlap beyond the cutoff (in either orientation of the pairwise check)
have exactly equal scores. -/
theorem C8_amended_retained_overlap_implies_equal_score (m : List PfdRow) (c : ℚ)
    (r1 r2 : PfdRow) (h1 : r1 ∈ (check_overlap m c).1) (h2 : r2 ∈ (check_overlap m c).1)
    (hcond : overlapCond r1 r2 c ∨ overlapCond r2 r1 c) : r1.score = r2.score := by
  have hmem2 : r2 ∈ m := by
    have hmem : r2 ∈ (deleteList m c).foldl (fun acc x => acc.erase x) m := by
      have := h2
      unfold check_overlap at this
      simpa using this
    have hcount := List.count_pos_iff.2 hmem
    rw [count_foldl_erase] at hcount
    exact List.count_pos_iff.1 (by omega)
  have hmem1 : r1 ∈ m := by
    have hmem : r1 ∈ (deleteList m c).foldl (fun acc x => acc.erase x) m := by
      have := h1
      unfold check_overlap at this
      simpa using this
    have hcount := List.count_pos_iff.2 hmem
    rw [count_foldl_erase] at hcount
    exact List.count_pos_iff.1 (by omega)
  by_contra hne
  rcases lt_or_gt_of_ne hne with hlt | hgt
  · exact retained_not_marked m c r1 h1
      ⟨r2, hmem2, hcond.imp (fun h => ⟨h, hlt⟩) (fun h => ⟨h, hlt⟩)⟩
  · exact retained_not_marked m c r2 h2
      ⟨r1, hmem1, (hcond.symm).imp (fun h => ⟨h, hgt⟩) (fun h => ⟨h, hgt⟩)⟩

/-- Witness for the amended C8 at a concrete input (a self-overlapping
retained row). -/
theorem C8_amended_retained_overlap_implies_equal_score_witness :
    (⟨"g", 50, "", 0, 100, "+", "PF1", "N1", "cds1"⟩ : PfdRow) ∈
        (check_overlap [⟨"g", 50, "", 0, 100, "+", "PF1", "N1", "cds1"⟩] (1/10)).1 ∧
      (⟨"g", 50, "", 0, 100, "+", "PF1", "N1", "cds1"⟩ : PfdRow).score =
        (⟨"g", 50, "", 0, 100, "+", "PF1", "N1", "cds1"⟩ : PfdRow).score := by
  have hmem : (⟨"g", 50, "", 0, 100, "+", "PF1", "N1", "cds1"⟩ : PfdRow) ∈
      (check_overlap [⟨"g", 50, "", 0, 100, "+", "PF1", "N1", "cds1"⟩] (1/10)).1 := by
    norm_num [check_overlap, deleteList, pairLoser, overlapCond, List.insertionSort,
      List.orderedInsert, List.enum, List.enumFrom_cons, List.enumFrom_nil,
      List.flatMap_cons, List.flatMap_nil, List.filterMap_cons, List.filterMap_nil]
  exact ⟨hmem, C8_amended_retained_overlap_implies_equal_score _ _ _ _ hmem hmem
    (Or.inl (by norm_num [overlapCond, no_overlap, overlap, overlap_perc]))⟩

/-- C8 (counterexample): two equal-scoring hits on the same CDS with overlap
fraction 0.2 > cutoff 0.1 are both retained by `check_overlap`, so the claim
that no two retained hits on one CDS exceed the cutoff is false. -/
theorem C8_counterexample_equal_scores_both_retained :
    (⟨"g", 50, "", 0, 100, "+", "PF1", "N1", "cds1"⟩ : PfdRow) ∈
        (check_overlap [⟨"g", 50, "", 0, 100, "+", "PF1", "N1", "cds1"⟩,
          ⟨"g", 50, "", 80, 180, "+", "PF2", "N2", "cds1"⟩] (1/10)).1 ∧
      (⟨"g", 50, "", 80, 180, "+", "PF2", "N2", "cds1"⟩ : PfdRow) ∈
        (check_overlap [⟨"g", 50, "", 0, 100, "+", "PF1", "N1", "cds1"⟩,
          ⟨"g", 50, "", 80, 180, "+", "PF2", "N2", "cds1"⟩] (1/10)).1 ∧
      overlapCond ⟨"g", 50, "", 0, 100, "+", "PF1", "N1", "cds1"⟩
        ⟨"g", 50, "", 80, 180, "+", "PF2", "N2", "cds1"⟩ (1/10) := by
  have heval : (check_overlap [⟨"g", 50, "", 0, 100, "+", "PF1", "N1", "cds1"⟩,
      ⟨"g", 50, "", 80, 180, "+", "PF2", "N2", "cds1"⟩] (1/10)).1 =
      [⟨"g", 50, "", 0, 100, "+", "PF1", "N1", "cds1"⟩,
       ⟨"g", 50, "", 80, 180, "+", "PF2", "N2", "cds1"⟩] := by
    norm_num [check_overlap, deleteList, pairLoser, overlapCond, no_overlap, overlap,
      overlap_perc, List.insertionSort, List.orderedInsert, List.enum,
      List.enumFrom_cons, List.enumFrom_nil, List.flatMap_cons, List.flatMap_nil,
      List.filterMap_cons, List.filterMap_nil]
  refine ⟨by rw [heval]; simp, by rw [heval]; simp, ?_⟩
  norm_num [overlapCond, no_overlap, overlap, overlap_perc]

/-! ### Assignment-matrix lemmas -/

lemma minAssignCost_le (N : ℕ) (M : ℕ → ℕ → ℚ) (σ : Equiv.Perm (Fin N)) :
    minAssignCost N M ≤ ∑ i : Fin N, M (i : ℕ) ((σ i : ℕ)) :=
  Finset.inf'_le _ (Finset.mem_univ σ)

lemma le_minAssignCost (N : ℕ) (M : ℕ → ℕ → ℚ) (c : ℚ)
    (h : ∀ σ : Equiv.Perm (Fin N), c ≤ ∑ i : Fin N, M (i : ℕ) ((σ i : ℕ))) :
    c ≤ minAssignCost N M :=
  Finset.le_inf' _ _ (fun σ _ => h σ)

lemma foldl_matUpdate_nonneg (us : List ((ℕ × ℕ) × ℚ)) :
    ∀ M0 : ℕ → ℕ → ℚ, (∀ i j, 0 ≤ M0 i j) → (∀ u ∈ us, 0 ≤ u.2) → ∀ i j,
      0 ≤ (us.foldl
        (fun M u => matUpdate (matUpdate M u.1.1 u.1.2 u.2) u.1.2 u.1.1 u.2) M0) i j := by
  induction us with
  | nil => intro M0 h0 _ i j; exact h0 i j
  | cons u us ih =>
    intro M0 h0 hu i j
    rw [List.foldl_cons]
    refine ih _ ?_ (fun v hv => hu v (by simp [hv])) i j
    intro a b
    unfold matUpdate
    split_ifs
    · exact hu u (by simp)
    · exact hu u (by simp)
    · exact h0 a b

lemma foldl_matUpdate_diag (us : List ((ℕ × ℕ) × ℚ)) (i : ℕ) :
    ∀ M0 : ℕ → ℕ → ℚ, M0 i i = 0 → (∀ u ∈ us, u.1.1 = i → u.1.2 = i → u.2 = 0) →
      (us.foldl
        (fun M u => matUpdate (matUpdate M u.1.1 u.1.2 u.2) u.1.2 u.1.1 u.2) M0) i i = 0 := by
  induction us with
  | nil => intro M0 h0 _; exact h0
  | cons u us ih =>
    intro M0 h0 hu
    rw [List.foldl_cons]
    refine ih _ ?_ (fun v hv h1 h2 => hu v (by simp [hv]) h1 h2)
    unfold matUpdate
    split_ifs with h1 h2
    · exact hu u (by simp) h1.2.symm h1.1.symm
    · exact hu u (by simp) h2.1.symm h2.2.symm
    · exact h0

lemma mem_matrixUpdates (DMS : String → String × String → Option ℚ) (d : String)
    (seta setb : List String) (u : (ℕ × ℕ) × ℚ) (hu : u ∈ matrixUpdates DMS d seta setb) :
    u.1.1 < seta.length ∧ u.1.1 ≤ u.1.2 ∧ u.1.2 < setb.length ∧
      u.2 = dmsLookup DMS d (seta.getD u.1.1 "") (setb.getD u.1.2 "") := by
  unfold matrixUpdates at hu
  rw [List.mem_flatMap] at hu
  obtain ⟨ja, hja, hu⟩ := hu
  rw [List.mem_map] at hu
  obtain ⟨jb, hjb, rfl⟩ := hu
  rw [List.mem_range] at hja
  rw [List.mem_range'] at hjb
  obtain ⟨k, hk, rfl⟩ := hjb
  dsimp only
  refine ⟨hja, by omega, by omega, rfl⟩

lemma dmsLookup_nonneg (DMS : String → String × String → Option ℚ)
    (hbound : ∀ d p v, DMS d p = some v → v ≤ 1) (d x y : String) :
    0 ≤ dmsLookup DMS d x y := by
  unfold dmsLookup
  cases hv : DMS d (sortPair x y) with
  | none => norm_num
  | some v =>
    have := hbound _ _ _ hv
    simp only [Option.getD_some]
    linarith

lemma dmsLookup_self (DMS : String → String × String → Option ℚ) (d x : String)
    (hx : DMS d (x, x) = some 1) : dmsLookup DMS d x x = 0 := by
  unfold dmsLookup sortPair
  rw [if_pos le_rfl, hx]
  norm_num

lemma getD_mem_of_lt (l : List String) (i : ℕ) (h : i < l.length) : l.getD i "" ∈ l := by
  rw [List.getD_eq_getElem?_getD, List.getElem?_eq_getElem h]
  exact List.getElem_mem h

/-! ### Claim C4 -/

/-- C4 (counterexample): in domain_dist mode with the default weights
0.4/0.2/0.4, the self-distance of the nonempty profile `["PF1", "PF2"]` is
1/5, not 0 (the Goodman-Kruskal term contributes only 1/2 for profiles
shorter than the neighbourhood width), refuting `distance(X, X) = 0` "in
both modes". -/
theorem C4_counterexample_domain_dist_self_distance :
    Distance_modified defaultWeights ["PF1", "PF2"] ["PF1", "PF2"] 0 4 =
        some ((1 : ℝ)/5) ∧ ((1 : ℝ)/5) ≠ 0 := by
  refine ⟨?_, by norm_num⟩
  have h1 : interCard ["PF1", "PF2"] ["PF1", "PF2"] = 2 := by decide
  have h2 : (["PF1", "PF2"] : List String).toFinset.card = 2 := by decide
  have h3 : ddsNum ["PF1", "PF2"] ["PF1", "PF2"] = 0 := by decide
  have h4 : ddsDen ["PF1", "PF2"] ["PF1", "PF2"] = 2 := by decide
  have h5 : gkNs ["PF1", "PF2"] ["PF1", "PF2"] 4 = 0 := by decide
  have h6 : gkNr ["PF1", "PF2"] ["PF1", "PF2"] 4 = 0 := by decide
  have h7 : gkNs ["PF2", "PF1"] ["PF1", "PF2"] 4 = 0 := by decide
  have h8 : gkNr ["PF2", "PF1"] ["PF1", "PF2"] 4 = 0 := by decide
  have h9 : interCard ["PF2", "PF1"] ["PF1", "PF2"] = 2 := by decide
  have h10 : ({"PF1", "PF2"} : Finset String).card = 2 := by decide
  have h11 : ({"PF2", "PF1"} : Finset String).card = 2 := by decide
  norm_num [Distance_modified, distanceBody, repeatsList, jaccardModified, ddsArg,
    calculate_GK, interCard, h1, h2, h3, h4, h5, h6, h7, h8, h9, h10, h11,
    defaultWeights, Real.exp_zero]

/-- C4 (amended): in seqdist mode the self-distance of a nonempty,
well-formed profile is exactly 0 under perfect self-identity DMS data with
values bounded by 1; the domain_dist half of the original claim is false
(see the counterexample). -/
theorem C4_amended_seqdist_self_distance_zero
    (DMS : String → String × String → Option ℚ) (X : BGC)
    (hne : X.doms.Nonempty) (hwf : ∀ d ∈ X.doms, X.inst d ≠ [])
    (hself : ∀ d ∈ X.doms, ∀ x ∈ X.inst d, DMS d (x, x) = some 1)
    (hbound : ∀ d p v, DMS d p = some v → v ≤ 1) :
    CompareTwoClusters DMS X X = some 0 := by
  have hc : (0 : ℚ) < (X.doms.card : ℚ) := by
    exact_mod_cast Finset.card_pos.2 hne
  have hcontrib : ∀ d ∈ X.doms,
      domContribution DMS d (instOf X d) (instOf X d) =
        (0, ((X.inst d).length : ℚ)) := by
    intro d hd
    have hinst : instOf X d = X.inst d := by rw [instOf, if_pos hd]
    rw [hinst]
    set l := X.inst d with hl
    have hlen : l.length ≠ 0 := by
      simpa [List.length_eq_zero] using hwf d hd
    by_cases h1 : l.length = 1
    · rw [domContribution, if_pos ⟨h1, h1⟩]
      have hx : l.getD 0 "" ∈ l := getD_mem_of_lt l 0 (by omega)
      rw [dmsLookup_self DMS d _ (hself d hd _ hx), h1]
      norm_num
    · have h2 : ¬(l.length = 1 ∧ l.length = 1) := fun h => h1 h.1
      have h3 : l.length + l.length ≠ 1 := by omega
      rw [domContribution, if_neg h2, if_neg h3]
      simp only [max_self]
      have hnn : ∀ i j, 0 ≤ buildDistanceMatrix DMS d l l i j := by
        refine foldl_matUpdate_nonneg _ _ (fun i j => le_refl 0) ?_
        intro u hu
        rw [(mem_matrixUpdates DMS d l l u hu).2.2.2]
        exact dmsLookup_nonneg DMS hbound d _ _
      have hdiag : ∀ i : ℕ, i < l.length → buildDistanceMatrix DMS d l l i i = 0 := by
        intro i _
        refine foldl_matUpdate_diag _ _ _ rfl ?_
        intro u hu hu1 hu2
        obtain ⟨ha, _, hb, hval⟩ := mem_matrixUpdates DMS d l l u hu
        rw [hval, hu1, hu2]
        exact dmsLookup_self DMS d _ (hself d hd _ (getD_mem_of_lt l i (hu1 ▸ ha)))
      have hmin : minAssignCost l.length (buildDistanceMatrix DMS d l l) = 0 := by
        refine le_antisymm ?_ ?_
        · refine le_trans (minAssignCost_le _ _ 1) ?_
          refine le_of_eq (Finset.sum_eq_zero ?_)
          intro i _
          rw [Equiv.Perm.one_apply]
          exact hdiag (i : ℕ) i.isLt
        · refine le_minAssignCost _ _ _ (fun σ => ?_)
          exact Finset.sum_nonneg (fun i _ => hnn _ _)
      rw [hmin]
  have hunion : X.doms ∪ X.doms = X.doms := Finset.union_self _
  have hS : (∑ d ∈ X.doms, (domContribution DMS d (instOf X d) (instOf X d)).2) =
      ∑ d ∈ X.doms, ((X.inst d).length : ℚ) := by
    refine Finset.sum_congr rfl (fun d hd => ?_)
    rw [hcontrib d hd]
  have hSpos : (0 : ℚ) < ∑ d ∈ X.doms, ((X.inst d).length : ℚ) := by
    refine Finset.sum_pos (fun d hd => ?_) hne
    have : (X.inst d).length ≠ 0 := by
      simpa [List.length_eq_zero] using hwf d hd
    exact_mod_cast Nat.pos_of_ne_zero this
  have hDDS : (∑ d ∈ X.doms, (domContribution DMS d (instOf X d) (instOf X d)).1) = 0 := by
    refine Finset.sum_eq_zero (fun d hd => ?_)
    rw [hcontrib d hd]
  simp only [CompareTwoClusters, Finset.inter_self, hunion, hS, hDDS]
  rw [if_neg (by linarith)]
  rw [if_neg (by linarith)]
  have hJ : (X.doms.card : ℚ) / ((X.doms.card : ℚ) + (X.doms.card : ℚ) - (X.doms.card : ℚ)) = 1 := by
    rw [show (X.doms.card : ℚ) + (X.doms.card : ℚ) - (X.doms.card : ℚ) = (X.doms.card : ℚ) by ring]
    exact div_self (ne_of_gt hc)
  rw [hJ]
  rw [zero_div]
  norm_num

/-- Witness for the amended C4 at a concrete profile and DMS. -/
theorem C4_amended_seqdist_self_distance_zero_witness :
    CompareTwoClusters
        (fun _ p => if p = ("x", "x") then some 1 else none)
        ⟨{"D"}, fun _ => ["x"]⟩ ⟨{"D"}, fun _ => ["x"]⟩ = some 0 := by
  refine C4_amended_seqdist_self_distance_zero _ _ ⟨"D", by decide⟩
    (fun d _ => by simp) (fun d hd x hx => ?_) (fun d p v hv => ?_)
  · have : x = "x" := by
      simpa using hx
    rw [this]
    simp
  · by_cases hp : p = ("x", "x")
    · subst hp
      have h1v : (1 : ℚ) = v := by simpa using hv
      exact le_of_eq h1v.symm
    · rw [if_neg hp] at hv
      cases hv

/-! ### Claim C5: symmetry -/

lemma filter_repeats_id (L : List String) :
    L.filter (fun i => !(repeatsList.contains i)) = L := by
  simp [repeatsList]

lemma Distance_modified_zero_eq (w : Weights) (A B : List String) (nb : ℕ) :
    Distance_modified w A B 0 nb = some (distanceBody w A B nb) := by
  rw [Distance_modified, if_neg (by norm_num), if_pos rfl, filter_repeats_id, filter_repeats_id]

lemma gkPairs_of_short (A : List String) (nb : ℕ) (h : A.length ≤ nb) :
    gkPairs A nb = ∅ := by
  rw [gkPairs, Nat.sub_eq_zero_of_le h]
  rfl

lemma calculate_GK_of_short (A B : List String) (nb : ℕ)
    (hA : A.length ≤ nb) (hB : B.length ≤ nb) :
    calculate_GK A B nb = if 1 < (A.toFinset ∩ B.toFinset).card then 1/2 else 0 := by
  have hNs : gkNs A B nb = 0 := by
    rw [gkNs, gkPairs_of_short A nb hA, gkPairs_of_short B nb hB]
    simp
  have hNr : gkNr A B nb = 0 := by
    rw [gkNr, gkPairs_of_short A nb hA, gkPairs_of_short B nb hB]
    simp
  rw [calculate_GK]
  by_cases hg : 1 < (A.toFinset ∩ B.toFinset).card
  · rw [if_pos hg, if_pos hg]
    simp only [hNs, hNr]
    norm_num
  · rw [if_neg hg, if_neg hg]

lemma jaccardModified_symm (A B : List String) :
    jaccardModified A B = jaccardModified B A := by
  rw [jaccardModified, jaccardModified, interCard, interCard,
    Finset.inter_comm B.toFinset A.toFinset, Nat.min_comm B.toFinset.card A.toFinset.card]

lemma ddsArg_symm (A B : List String) : ddsArg A B = ddsArg B A := by
  have hnum : ddsNum A B = ddsNum B A := by
    rw [ddsNum, ddsNum, List.toFinset_append, List.toFinset_append,
      Finset.union_comm B.toFinset A.toFinset]
    exact Finset.sum_congr rfl (fun p _ => abs_sub_comm _ _)
  have hden : ddsDen A B = ddsDen B A := by
    rw [ddsDen, ddsDen, List.toFinset_append, List.toFinset_append,
      Finset.union_comm B.toFinset A.toFinset]
    exact Finset.sum_congr rfl (fun p _ => Nat.max_comm _ _)
  rw [ddsArg, ddsArg, hnum, hden]

lemma distanceBody_symm_of_short (w : Weights) (A B : List String) (nb : ℕ)
    (hA : A.length ≤ nb) (hB : B.length ≤ nb) :
    distanceBody w A B nb = distanceBody w B A nb := by
  have hrA : A.reverse.length ≤ nb := by simpa using hA
  have hrB : B.reverse.length ≤ nb := by simpa using hB
  have hGK : max (calculate_GK A B nb) (calculate_GK A.reverse B nb) =
      max (calculate_GK B A nb) (calculate_GK B.reverse A nb) := by
    rw [calculate_GK_of_short A B nb hA hB, calculate_GK_of_short A.reverse B nb hrA hB,
      calculate_GK_of_short B A nb hB hA, calculate_GK_of_short B.reverse A nb hrB hA]
    rw [List.toFinset_reverse, List.toFinset_reverse,
      Finset.inter_comm B.toFinset A.toFinset]
  simp only [distanceBody, jaccardModified_symm A B, ddsArg_symm A B, hGK]
  by_cases h0 : A.length = 0 ∨ B.length = 0
  · rw [if_pos h0, if_pos h0.symm]
  · rw [if_neg h0,
      if_neg (show ¬(B.length = 0 ∨ A.length = 0) from fun hc => h0 hc.symm)]

lemma sortPair_comm (x y : String) : sortPair x y = sortPair y x := by
  rw [sortPair, sortPair]
  rcases le_total x y with h | h
  · by_cases h2 : y ≤ x
    · rw [if_pos h, if_pos h2, le_antisymm h h2]
    · rw [if_pos h, if_neg h2]
  · by_cases h2 : x ≤ y
    · rw [if_pos h2, if_pos h, le_antisymm h2 h]
    · rw [if_neg h2, if_pos h]

lemma dmsLookup_comm (DMS : String → String × String → Option ℚ) (d x y : String) :
    dmsLookup DMS d x y = dmsLookup DMS d y x := by
  rw [dmsLookup, dmsLookup, sortPair_comm]

lemma minAssignCost_zero (M : ℕ → ℕ → ℚ) : minAssignCost 0 M = 0 := by
  refine le_antisymm ?_ ?_
  · simpa using minAssignCost_le 0 M 1
  · refine le_minAssignCost _ _ _ (fun σ => ?_)
    simp

lemma domContribution_symm_of_singletons (DMS : String → String × String → Option ℚ)
    (d : String) (seta setb : List String)
    (ha : seta.length ≤ 1) (hb : setb.length ≤ 1) :
    domContribution DMS d seta setb = domContribution DMS d setb seta := by
  rcases Nat.le_one_iff_eq_zero_or_eq_one.1 ha with ha0 | ha1 <;>
    rcases Nat.le_one_iff_eq_zero_or_eq_one.1 hb with hb0 | hb1
  · rw [domContribution, domContribution, if_neg (by omega), if_neg (by omega),
      if_neg (by omega), if_neg (by omega)]
    simp only [ha0, hb0, max_self]
    rw [minAssignCost_zero, minAssignCost_zero]
  · rw [domContribution, domContribution, if_neg (by omega), if_pos (by omega),
      if_neg (by omega), if_pos (by omega)]
  · rw [domContribution, domContribution, if_neg (by omega), if_pos (by omega),
      if_neg (by omega), if_pos (by omega)]
  · rw [domContribution, domContribution, if_pos ⟨ha1, hb1⟩, if_pos ⟨hb1, ha1⟩,
      dmsLookup_comm]

lemma CompareTwoClusters_symm_of_singletons (DMS : String → String × String → Option ℚ)
    (A B : BGC) (hA : ∀ d, (instOf A d).length ≤ 1) (hB : ∀ d, (instOf B d).length ≤ 1) :
    CompareTwoClusters DMS A B = CompareTwoClusters DMS B A := by
  have hcontr : ∀ d, domContribution DMS d (instOf B d) (instOf A d) =
      domContribution DMS d (instOf A d) (instOf B d) :=
    fun d => domContribution_symm_of_singletons DMS d _ _ (hB d) (hA d)
  simp only [CompareTwoClusters]
  rw [Finset.inter_comm B.doms A.doms, Finset.union_comm B.doms A.doms]
  rw [show (B.doms.card : ℚ) + (A.doms.card : ℚ) = (A.doms.card : ℚ) + (B.doms.card : ℚ) from
    by ring]
  rw [show (∑ d ∈ A.doms ∪ B.doms, (domContribution DMS d (instOf B d) (instOf A d)).1) =
      ∑ d ∈ A.doms ∪ B.doms, (domContribution DMS d (instOf A d) (instOf B d)).1 from
    Finset.sum_congr rfl (fun d _ => by rw [hcontr d])]
  rw [show (∑ d ∈ A.doms ∪ B.doms, (domContribution DMS d (instOf B d) (instOf A d)).2) =
      ∑ d ∈ A.doms ∪ B.doms, (domContribution DMS d (instOf A d) (instOf B d)).2 from
    Finset.sum_congr rfl (fun d _ => by rw [hcontr d])]

/-- C5 (counterexample): domain_dist distance is not symmetric.  With the
default weights, `A = [a,b,c,d,e]` and `B = [e,d,c,b,z]`,
`Distance_modified(A,B)` uses GK = 1 (the reversed-A orientation matches B's
window pairs) while `Distance_modified(B,A)` uses GK = 1/2, so the two
distances differ by 1/5. -/
theorem C5_counterexample_domain_dist_asymmetric :
    Distance_modified defaultWeights ["a", "b", "c", "d", "e"] ["e", "d", "c", "b", "z"] 0 4 ≠
      Distance_modified defaultWeights ["e", "d", "c", "b", "z"] ["a", "b", "c", "d", "e"] 0 4 := by
  have hJab : jaccardModified ["a", "b", "c", "d", "e"] ["e", "d", "c", "b", "z"] = 2/3 := by
    rw [jaccardModified, show interCard ["a", "b", "c", "d", "e"] ["e", "d", "c", "b", "z"] = 4
      from by decide]
    norm_num [show (["a", "b", "c", "d", "e"] : List String).toFinset.card = 5 from by decide,
      show (["e", "d", "c", "b", "z"] : List String).toFinset.card = 5 from by decide,
      show ({"a", "b", "c", "d", "e"} : Finset String).card = 5 from by decide,
      show ({"e", "d", "c", "b", "z"} : Finset String).card = 5 from by decide]
  have hDab : ddsArg ["a", "b", "c", "d", "e"] ["e", "d", "c", "b", "z"] = 1/3 := by
    rw [ddsArg, show ddsNum ["a", "b", "c", "d", "e"] ["e", "d", "c", "b", "z"] = 2
      from by decide,
      show ddsDen ["a", "b", "c", "d", "e"] ["e", "d", "c", "b", "z"] = 6 from by decide]
    norm_num
  have hg1 : calculate_GK ["a", "b", "c", "d", "e"] ["e", "d", "c", "b", "z"] 4 = 1/2 := by
    rw [calculate_GK, if_pos (by decide)]
    simp only [show gkNs ["a", "b", "c", "d", "e"] ["e", "d", "c", "b", "z"] 4 = 0 from by decide,
      show gkNr ["a", "b", "c", "d", "e"] ["e", "d", "c", "b", "z"] 4 = 0 from by decide]
    norm_num
  have hg2 : calculate_GK ["e", "d", "c", "b", "a"] ["e", "d", "c", "b", "z"] 4 = 1 := by
    rw [calculate_GK, if_pos (by decide)]
    simp only [show gkNs ["e", "d", "c", "b", "a"] ["e", "d", "c", "b", "z"] 4 = 3 from by decide,
      show gkNr ["e", "d", "c", "b", "a"] ["e", "d", "c", "b", "z"] 4 = 0 from by decide]
    norm_num
  have hg3 : calculate_GK ["e", "d", "c", "b", "z"] ["a", "b", "c", "d", "e"] 4 = 1/2 := by
    rw [calculate_GK, if_pos (by decide)]
    simp only [show gkNs ["e", "d", "c", "b", "z"] ["a", "b", "c", "d", "e"] 4 = 0 from by decide,
      show gkNr ["e", "d", "c", "b", "z"] ["a", "b", "c", "d", "e"] 4 = 0 from by decide]
    norm_num
  have hg4 : calculate_GK ["z", "b", "c", "d", "e"] ["a", "b", "c", "d", "e"] 4 = 1/2 := by
    rw [calculate_GK, if_pos (by decide)]
    simp only [show gkNs ["z", "b", "c", "d", "e"] ["a", "b", "c", "d", "e"] 4 = 0 from by decide,
      show gkNr ["z", "b", "c", "d", "e"] ["a", "b", "c", "d", "e"] 4 = 0 from by decide]
    norm_num
  have hE1 : Real.exp (-((1 : ℝ)/3)) ≤ 1 := by
    rw [Real.exp_le_one_iff]
    norm_num
  have hrev1 : (["a", "b", "c", "d", "e"] : List String).reverse = ["e", "d", "c", "b", "a"] := by
    decide
  have hrev2 : (["e", "d", "c", "b", "z"] : List String).reverse = ["z", "b", "c", "d", "e"] := by
    decide
  have hJba : jaccardModified ["e", "d", "c", "b", "z"] ["a", "b", "c", "d", "e"] = 2/3 := by
    rw [jaccardModified_symm, hJab]
  have hDba : ddsArg ["e", "d", "c", "b", "z"] ["a", "b", "c", "d", "e"] = 1/3 := by
    rw [ddsArg_symm, hDab]
  have hAB : Distance_modified defaultWeights
      ["a", "b", "c", "d", "e"] ["e", "d", "c", "b", "z"] 0 4 =
      some (1 - (2/5 : ℝ) * (2/3) - (1/5 : ℝ) * Real.exp (-((1 : ℝ)/3)) - (2/5 : ℝ) * 1) := by
    rw [Distance_modified_zero_eq]
    simp only [distanceBody, if_neg (show ¬((["a", "b", "c", "d", "e"] : List String).length = 0 ∨
      (["e", "d", "c", "b", "z"] : List String).length = 0) from by norm_num)]
    simp only [hrev1, hJab, hDab, hg1, hg2, defaultWeights]
    rw [show max ((1 : ℚ)/2) 1 = 1 from by norm_num]
    rw [if_neg (show ¬((1 : ℝ) - ((2/5 : ℚ) : ℝ) * ((2/3 : ℚ) : ℝ) -
        ((1/5 : ℚ) : ℝ) * Real.exp (-((1/3 : ℚ) : ℝ)) - ((2/5 : ℚ) : ℝ) * ((1 : ℚ) : ℝ) < 0)
      from by push_cast; linarith [hE1])]
    congr 1
    push_cast
    ring
  have hBA : Distance_modified defaultWeights
      ["e", "d", "c", "b", "z"] ["a", "b", "c", "d", "e"] 0 4 =
      some (1 - (2/5 : ℝ) * (2/3) - (1/5 : ℝ) * Real.exp (-((1 : ℝ)/3)) -
        (2/5 : ℝ) * (1/2)) := by
    rw [Distance_modified_zero_eq]
    simp only [distanceBody, if_neg (show ¬((["e", "d", "c", "b", "z"] : List String).length = 0 ∨
      (["a", "b", "c", "d", "e"] : List String).length = 0) from by norm_num)]
    simp only [hrev2, hJba, hDba, hg3, hg4, defaultWeights]
    rw [show max ((1 : ℚ)/2) (1/2 : ℚ) = 1/2 from by norm_num]
    rw [if_neg (show ¬((1 : ℝ) - ((2/5 : ℚ) : ℝ) * ((2/3 : ℚ) : ℝ) -
        ((1/5 : ℚ) : ℝ) * Real.exp (-((1/3 : ℚ) : ℝ)) - ((2/5 : ℚ) : ℝ) * ((1/2 : ℚ) : ℝ) < 0)
      from by push_cast; linarith [hE1])]
    congr 1
    push_cast
    ring
  rw [hAB, hBA]
  intro h
  have h2 := Option.some_injective _ h
  linarith [h2]

/-- C5 (amended): the distance is symmetric on the fragment where the
order/multi-instance machinery is inert — in domain_dist mode whenever both
profiles are no longer than the neighbourhood width (so all GK window pair
sets are empty), and in seqdist mode whenever every domain family has at most
one instance on each side (so the assignment branch is never taken on
asymmetric data); in general symmetry fails in both modes (see the
counterexample). -/
theorem C5_amended_symmetry_on_inert_fragment :
    (∀ (w : Weights) (A B : List String) (nb : ℕ), A.length ≤ nb → B.length ≤ nb →
        Distance_modified w A B 0 nb = Distance_modified w B A 0 nb) ∧
      (∀ (DMS : String → String × String → Option ℚ) (A B : BGC),
        (∀ d, (instOf A d).length ≤ 1) → (∀ d, (instOf B d).length ≤ 1) →
        CompareTwoClusters DMS A B = CompareTwoClusters DMS B A) := by
  constructor
  · intro w A B nb hA hB
    rw [Distance_modified_zero_eq, Distance_modified_zero_eq,
      distanceBody_symm_of_short w A B nb hA hB]
  · intro DMS A B hA hB
    exact CompareTwoClusters_symm_of_singletons DMS A B hA hB

/-- Witness for the amended C5 at concrete inputs in both modes. -/
theorem C5_amended_symmetry_on_inert_fragment_witness :
    Distance_modified defaultWeights ["a"] ["b"] 0 4 =
        Distance_modified defaultWeights ["b"] ["a"] 0 4 ∧
      CompareTwoClusters (fun _ _ => none) ⟨{"D"}, fun _ => ["x"]⟩ ⟨{"E"}, fun _ => ["y"]⟩ =
        CompareTwoClusters (fun _ _ => none) ⟨{"E"}, fun _ => ["y"]⟩ ⟨{"D"}, fun _ => ["x"]⟩ :=
  ⟨C5_amended_symmetry_on_inert_fragment.1 defaultWeights ["a"] ["b"] 4
      (by norm_num) (by norm_num),
    C5_amended_symmetry_on_inert_fragment.2 _ _ _
      (fun d => by rw [instOf]; split_ifs <;> simp)
      (fun d => by rw [instOf]; split_ifs <;> simp)⟩

/-! ### Claim C6: empty profiles -/

lemma domContribution_snd_nonneg (DMS : String → String × String → Option ℚ)
    (d : String) (sa sb : List String) : 0 ≤ (domContribution DMS d sa sb).2 := by
  rw [domContribution]
  split_ifs
  · norm_num
  · norm_num
  · positivity

lemma one_le_domContribution_snd (DMS : String → String × String → Option ℚ)
    (d : String) (sa sb : List String) (h : sa ≠ [] ∨ sb ≠ []) :
    1 ≤ (domContribution DMS d sa sb).2 := by
  have hlen : 1 ≤ max sa.length sb.length := by
    rcases h with h | h
    · have := List.length_pos.2 h
      omega
    · have := List.length_pos.2 h
      omega
  rw [domContribution]
  split_ifs
  · norm_num
  · norm_num
  · dsimp only
    exact_mod_cast hlen

/-- C6 (counterexample): in seqdist mode, comparing an empty profile against
a one-domain cluster returns `1 − 0.64·exp(−1)`, which is strictly less than
1, refuting the claim that the result is exactly 1.0 in both modes. -/
theorem C6_counterexample_seqdist_empty_profile_not_one :
    CompareTwoClusters (fun _ _ => none) ⟨∅, fun _ => []⟩ ⟨{"D"}, fun _ => ["x"]⟩ ≠
      some 1 := by
  have heval : CompareTwoClusters (fun _ _ => none) ⟨∅, fun _ => []⟩ ⟨{"D"}, fun _ => ["x"]⟩ =
      some (1 - 36/100 * ((0 : ℚ) : ℝ) - 64/100 * Real.exp (-(((1 : ℚ)/(1 : ℚ) : ℚ) : ℝ))) := by
    norm_num [CompareTwoClusters, instOf, domContribution]
  rw [heval]
  intro h
  have h2 := Option.some_injective _ h
  have h3 : (0 : ℝ) < Real.exp (-(((1 : ℚ)/(1 : ℚ) : ℚ) : ℝ)) := Real.exp_pos _
  push_cast at h2
  linarith

/-- C6 (amended): comparing an empty profile in domain_dist mode does return
exactly 1; in seqdist mode the code has no such guard: whenever
`CompareTwoClusters` returns at all its value is strictly below 1, it does
return `some` value for an empty profile against a nonempty well-formed one,
and comparing two empty profiles divides by zero (modelled `none`). -/
theorem C6_amended_empty_profile_behaviour :
    (∀ (w : Weights) (A B : List String) (nb : ℕ), A = [] ∨ B = [] →
        Distance_modified w A B 0 nb = some 1) ∧
      (∀ (DMS : String → String × String → Option ℚ) (A B : BGC) (r : ℝ),
        CompareTwoClusters DMS A B = some r → r < 1) ∧
      (∀ (DMS : String → String × String → Option ℚ) (B : BGC) (eA : String → List String),
        B.doms.Nonempty → (∀ d ∈ B.doms, B.inst d ≠ []) →
        ∃ r : ℝ, CompareTwoClusters DMS ⟨∅, eA⟩ B = some r) ∧
      (∀ (DMS : String → String × String → Option ℚ) (eA eB : String → List String),
        CompareTwoClusters DMS ⟨∅, eA⟩ ⟨∅, eB⟩ = none) := by
  refine ⟨?_, ?_, ?_, ?_⟩
  · intro w A B nb h
    rw [Distance_modified_zero_eq, distanceBody, if_pos ?_]
    rcases h with rfl | rfl
    · exact Or.inl rfl
    · exact Or.inr rfl
  · intro DMS A B r h
    simp only [CompareTwoClusters] at h
    split_ifs at h with h1 h2
    simp at h
    subst h
    have hca : ((A.doms ∩ B.doms).card : ℝ) ≤ (A.doms.card : ℝ) := by
      exact_mod_cast Finset.card_le_card Finset.inter_subset_left
    have hb0 : (0 : ℝ) ≤ (B.doms.card : ℝ) := by positivity
    have hJ : (0 : ℝ) ≤ ((A.doms ∩ B.doms).card : ℝ) /
        ((A.doms.card : ℝ) + (B.doms.card : ℝ) - ((A.doms ∩ B.doms).card : ℝ)) :=
      div_nonneg (by positivity) (by linarith)
    have hE := Real.exp_pos (-((∑ i ∈ A.doms ∪ B.doms,
        ((domContribution DMS i (instOf A i) (instOf B i)).1 : ℝ)) /
        ∑ i ∈ A.doms ∪ B.doms, ((domContribution DMS i (instOf A i) (instOf B i)).2 : ℝ)))
    linarith
  · intro DMS B eA hne hwf
    simp only [CompareTwoClusters]
    rw [if_neg ?hden]
    case hden =>
      rw [Finset.empty_inter]
      have hb : 0 < B.doms.card := Finset.card_pos.2 hne
      simp only [Finset.card_empty, Nat.cast_zero, zero_add, sub_zero]
      exact_mod_cast Nat.pos_iff_ne_zero.1 hb
    rw [if_neg ?hS]
    case hS =>
      obtain ⟨d0, hd0⟩ := hne
      have hd0u : d0 ∈ (⟨∅, eA⟩ : BGC).doms ∪ B.doms := Finset.mem_union_right _ hd0
      have hpos : (1 : ℚ) ≤ ∑ d ∈ (⟨∅, eA⟩ : BGC).doms ∪ B.doms,
          (domContribution DMS d (instOf ⟨∅, eA⟩ d) (instOf B d)).2 := by
        refine le_trans (one_le_domContribution_snd DMS d0 _ _ (Or.inr ?_))
          (Finset.single_le_sum (fun d _ => domContribution_snd_nonneg DMS d _ _) hd0u)
        rw [instOf, if_pos hd0]
        exact hwf d0 hd0
      intro hcon
      rw [hcon] at hpos
      norm_num at hpos
    exact ⟨_, rfl⟩
  · intro DMS eA eB
    simp only [CompareTwoClusters]
    rw [if_pos (by rw [Finset.empty_inter]; simp)]

/-- Witness for the amended C6 at concrete inputs. -/
theorem C6_amended_empty_profile_behaviour_witness :
    Distance_modified defaultWeights [] ["PF1"] 0 4 = some 1 ∧
      CompareTwoClusters (fun _ _ => none) ⟨∅, fun _ => []⟩ ⟨∅, fun _ => []⟩ = none :=
  ⟨C6_amended_empty_profile_behaviour.1 defaultWeights [] ["PF1"] 4 (Or.inl rfl),
    C6_amended_empty_profile_behaviour.2.2.2 (fun _ _ => none) (fun _ => []) (fun _ => [])⟩

/-! ### Claim C7: the assignment matrix fill -/

lemma dmsLookup_none (d x y : String) : dmsLookup (fun _ _ => none) d x y = 9/10 := by
  rw [dmsLookup]
  norm_num

/-- C7: the inner loop `for jb in xrange(ja, len(setb))` fills only a
triangular fragment of the cost matrix.  For the family `D` with instance
sets `[a0, a1]` and `[b0]` and an empty DMS, the existing cross pair
`(a1, b0)` (cell `(1, 0)`) is left at the padding value 0 even though its
DMS-derived dissimilarity is the fallback 0.9; the optimal assignment then
picks the two zero cells, the family contributes 0 instead of 0.9, and the
whole cluster distance collapses to 0. -/
theorem C7_code_bug_triangular_fill_leaves_real_pairs_zero :
    buildDistanceMatrix (fun _ _ => none) "D" ["a0", "a1"] ["b0"] 1 0 = 0 ∧
      dmsLookup (fun _ _ => none) "D" "a1" "b0" = 9/10 ∧
      CompareTwoClusters (fun _ _ => none)
        ⟨{"D"}, fun _ => ["a0", "a1"]⟩ ⟨{"D"}, fun _ => ["b0"]⟩ = some 0 := by
  have hupd : matrixUpdates (fun _ _ => none) "D" ["a0", "a1"] ["b0"] =
      [((0, 0), 9/10)] := by
    rw [matrixUpdates]
    rw [show List.range (["a0", "a1"] : List String).length = [0, 1] from by decide]
    simp [dmsLookup_none, List.range']
  have hM : ∀ i j : ℕ, buildDistanceMatrix (fun _ _ => none) "D" ["a0", "a1"] ["b0"] i j =
      if i = 0 ∧ j = 0 then 9/10 else 0 := by
    intro i j
    rw [buildDistanceMatrix, hupd]
    simp only [List.foldl_cons, List.foldl_nil, matUpdate]
    split_ifs with ha <;> rfl
  have hmin : minAssignCost 2 (buildDistanceMatrix (fun _ _ => none) "D" ["a0", "a1"] ["b0"])
      = 0 := by
    refine le_antisymm ?_ ?_
    · refine le_trans (minAssignCost_le 2 _ (Equiv.swap 0 1)) (le_of_eq ?_)
      rw [Fin.sum_univ_two]
      rw [Equiv.swap_apply_left, Equiv.swap_apply_right]
      rw [show (((0 : Fin 2) : ℕ)) = 0 from rfl, show (((1 : Fin 2) : ℕ)) = 1 from rfl]
      rw [hM 0 1, hM 1 0]
      norm_num
    · refine le_minAssignCost _ _ _ (fun σ => Finset.sum_nonneg (fun i _ => ?_))
      rw [hM]
      split_ifs
      · norm_num
      · exact le_refl 0
  refine ⟨by rw [hM]; norm_num, dmsLookup_none "D" "a1" "b0", ?_⟩
  have hc : domContribution (fun _ _ => none) "D" ["a0", "a1"] ["b0"] =
      (0, (2 : ℚ)) := by
    rw [domContribution, if_neg (by norm_num), if_neg (by norm_num)]
    rw [show max (["a0", "a1"] : List String).length (["b0"] : List String).length = 2
      from by decide]
    dsimp only
    rw [hmin]
    norm_num
  simp only [CompareTwoClusters, instOf]
  norm_num [hc, Real.exp_zero]

/-! ### Network-level helper lemmas -/

lemma logb_two_pow_inv (n : ℕ) : -(Real.logb 2 (((2 : ℝ) ^ n)⁻¹)) = n := by
  have h2 : Real.log 2 ≠ 0 := ne_of_gt (Real.log_pos (by norm_num))
  rw [show Real.logb 2 (((2 : ℝ) ^ n)⁻¹) = Real.log (((2 : ℝ) ^ n)⁻¹) / Real.log 2 from rfl]
  rw [Real.log_inv, Real.log_pow]
  field_simp

lemma pyFloatRepr_coe_nat (n : ℕ) :
    pyFloatRepr (some ((n : ℕ) : ℝ)) = (Nat.repr n).data ++ ['.', '0'] := by
  rw [pyFloatRepr]
  rw [dif_pos (⟨n, rfl⟩ : ∃ m : ℕ, ((n : ℕ) : ℝ) = (m : ℝ))]
  have hs := (⟨n, rfl⟩ : ∃ m : ℕ, ((n : ℕ) : ℝ) = (m : ℝ)).choose_spec
  have hc : (⟨n, rfl⟩ : ∃ m : ℕ, ((n : ℕ) : ℝ) = (m : ℝ)).choose = n :=
    Nat.cast_injective hs.symm
  rw [hc]

/-! ### Claim C1 -/

/-- C1: the log score emitted by `generate_network` is `-log2(distance)`,
not `-log2(similarity)`, and the infinity sentinel appears at distance 0
(similarity 1), not at similarity 0.  Concretely, the pair of identical
clusters `c1`, `c2` (pfs contents `a b c d e `, default weights) has
distance 0 and similarity 1, yet the emitted row carries the infinity
sentinel, where the claim (and the function's own docstring,
`saves the distances as the log2 of the similarity`) demands the finite
value `-log2(1) = 0`. -/
theorem C1_code_bug_logscore_is_of_distance_not_similarity :
    generate_network
        (distDispatch defaultWeights (fun _ => ⟨∅, fun _ => []⟩) (fun _ _ => none)
          (fun _ => ("a b c d e ").data) "out" DistMethod.domain_dist)
        ["c1", "c2"] (fun _ => "grp") =
      some [⟨"c1", "c2", "grp", "grp", none, 0, 1⟩] ∧
    (1 : ℝ) - (0 : ℝ) ≠ 0 := by
  refine ⟨?_, by norm_num⟩
  have hL : ∀ fname : String, get_domain_list (fun _ => ("a b c d e ").data) fname =
      ["a", "b", "c", "d", "e", ""] := by
    intro fname
    show (pySplitSpace (readline ("a b c d e ").data)).map (fun cs => String.mk cs) =
      ["a", "b", "c", "d", "e", ""]
    decide
  have hdist : distDispatch defaultWeights (fun _ => ⟨∅, fun _ => []⟩) (fun _ _ => none)
      (fun _ => ("a b c d e ").data) "out" DistMethod.domain_dist "c1" "c2" = some 0 := by
    simp only [distDispatch]
    rw [hL, hL, Distance_modified_zero_eq]
    congr 1
    have hJ : jaccardModified ["a", "b", "c", "d", "e", ""] ["a", "b", "c", "d", "e", ""]
        = 1 := by
      rw [jaccardModified,
        show interCard ["a", "b", "c", "d", "e", ""] ["a", "b", "c", "d", "e", ""] = 6
          from by decide]
      norm_num [show (["a", "b", "c", "d", "e", ""] : List String).toFinset.card = 6
          from by decide,
        show ({"a", "b", "c", "d", "e", ""} : Finset String).card = 6 from by decide]
    have hD : ddsArg ["a", "b", "c", "d", "e", ""] ["a", "b", "c", "d", "e", ""] = 0 := by
      rw [ddsArg,
        show ddsNum ["a", "b", "c", "d", "e", ""] ["a", "b", "c", "d", "e", ""] = 0
          from by decide]
      norm_num
    have hg1 : calculate_GK ["a", "b", "c", "d", "e", ""]
        ["a", "b", "c", "d", "e", ""] 4 = 1 := by
      rw [calculate_GK, if_pos (by decide)]
      simp only [show gkNs ["a", "b", "c", "d", "e", ""] ["a", "b", "c", "d", "e", ""] 4 = 6
          from by decide,
        show gkNr ["a", "b", "c", "d", "e", ""] ["a", "b", "c", "d", "e", ""] 4 = 0
          from by decide]
      norm_num
    have hg2 : calculate_GK ["", "e", "d", "c", "b", "a"]
        ["a", "b", "c", "d", "e", ""] 4 = 1 := by
      rw [calculate_GK, if_pos (by decide)]
      simp only [show gkNs ["", "e", "d", "c", "b", "a"] ["a", "b", "c", "d", "e", ""] 4 = 0
          from by decide,
        show gkNr ["", "e", "d", "c", "b", "a"] ["a", "b", "c", "d", "e", ""] 4 = 2
          from by decide]
      norm_num
    have hrev : (["a", "b", "c", "d", "e", ""] : List String).reverse =
        ["", "e", "d", "c", "b", "a"] := by decide
    simp only [distanceBody,
      if_neg (show ¬((["a", "b", "c", "d", "e", ""] : List String).length = 0 ∨
        (["a", "b", "c", "d", "e", ""] : List String).length = 0) from by norm_num),
      hrev, hJ, hD, hg1, hg2, defaultWeights]
    rw [max_self]
    rw [if_neg (show ¬((1 : ℝ) - ((2/5 : ℚ) : ℝ) * ((1 : ℚ) : ℝ) -
        ((1/5 : ℚ) : ℝ) * Real.exp (-((0 : ℚ) : ℝ)) - ((2/5 : ℚ) : ℝ) * ((1 : ℚ) : ℝ) < 0)
      from by push_cast; rw [neg_zero, Real.exp_zero]; norm_num)]
    push_cast
    rw [neg_zero, Real.exp_zero]
    norm_num
  rw [generate_network, show listPairs ["c1", "c2"] = [("c1", "c2")] from rfl]
  rw [networkRows, hdist, networkRows]
  simp only [Option.map_some']
  rw [show sortNetworkMatrix [mkRow (fun _ => "grp") "c1" "c2" 0] =
    [mkRow (fun _ => "grp") "c1" "c2" 0] from by
      simp [sortNetworkMatrix, List.insertionSort, List.orderedInsert]]
  norm_num [mkRow]

/-! ### Claim C2 -/

/-- C2 (counterexample): `write_network_matrix` filters on column 4 — the
log score — not on the squared similarity.  With Jaccard weight 1/2 (other
weights 0) and two identical one-domain clusters, the emitted row has
distance 1/2, log score 1 and squared similarity 1/4; at cutoff 0.5 the code
writes the row although its squared similarity 1/4 does not strictly exceed
0.5, refuting the claimed filter criterion. -/
theorem C2_counterexample_filter_is_on_logscore :
    generate_network
        (distDispatch ⟨1/2, 0, 0⟩ (fun _ => ⟨∅, fun _ => []⟩) (fun _ _ => none)
          (fun _ => ("a ").data) "out" DistMethod.domain_dist)
        ["c1", "c2"] (fun _ => "grp") =
      some [⟨"c1", "c2", "grp", "grp", some 1, 1/2, 1/4⟩] ∧
    write_network_matrix [⟨"c1", "c2", "grp", "grp", some 1, 1/2, 1/4⟩] (1/2) =
      [⟨"c1", "c2", "grp", "grp", some 1, 1/2, 1/4⟩] ∧
    ¬(((1 : ℝ)/4) > 1/2) := by
  have hL : ∀ fname : String, get_domain_list (fun _ => ("a ").data) fname = ["a", ""] := by
    intro fname
    show (pySplitSpace (readline ("a ").data)).map (fun cs => String.mk cs) = ["a", ""]
    decide
  have hg1 : calculate_GK ["a", ""] ["a", ""] 4 = 1/2 := by
    rw [calculate_GK, if_pos (by decide)]
    simp only [show gkNs ["a", ""] ["a", ""] 4 = 0 from by decide,
      show gkNr ["a", ""] ["a", ""] 4 = 0 from by decide]
    norm_num
  have hg2 : calculate_GK ["", "a"] ["a", ""] 4 = 1/2 := by
    rw [calculate_GK, if_pos (by decide)]
    simp only [show gkNs ["", "a"] ["a", ""] 4 = 0 from by decide,
      show gkNr ["", "a"] ["a", ""] 4 = 0 from by decide]
    norm_num
  have hdist : distDispatch ⟨1/2, 0, 0⟩ (fun _ => ⟨∅, fun _ => []⟩) (fun _ _ => none)
      (fun _ => ("a ").data) "out" DistMethod.domain_dist "c1" "c2" = some ((1 : ℝ)/2) := by
    simp only [distDispatch]
    rw [hL, hL, Distance_modified_zero_eq]
    congr 1
    have hJ : jaccardModified ["a", ""] ["a", ""] = 1 := by
      rw [jaccardModified, show interCard ["a", ""] ["a", ""] = 2 from by decide]
      norm_num [show (["a", ""] : List String).toFinset.card = 2 from by decide,
        show ({"a", ""} : Finset String).card = 2 from by decide]
    have hD : ddsArg ["a", ""] ["a", ""] = 0 := by
      rw [ddsArg, show ddsNum ["a", ""] ["a", ""] = 0 from by decide]
      norm_num
    have hrev : (["a", ""] : List String).reverse = ["", "a"] := by decide
    simp only [distanceBody,
      if_neg (show ¬((["a", ""] : List String).length = 0 ∨
        (["a", ""] : List String).length = 0) from by norm_num),
      hrev, hJ, hD, hg1, hg2]
    rw [max_self]
    rw [if_neg (show ¬((1 : ℝ) - ((1/2 : ℚ) : ℝ) * ((1 : ℚ) : ℝ) -
        ((0 : ℚ) : ℝ) * Real.exp (-((0 : ℚ) : ℝ)) - ((0 : ℚ) : ℝ) * ((1/2 : ℚ) : ℝ) < 0)
      from by push_cast; norm_num)]
    push_cast
    norm_num
  have hlog : -(Real.logb 2 ((1 : ℝ)/2)) = 1 := by
    rw [show (1 : ℝ)/2 = ((2 : ℝ) ^ (1 : ℕ))⁻¹ from by norm_num, logb_two_pow_inv 1]
    norm_num
  have hrow : mkRow (fun _ => "grp") "c1" "c2" ((1 : ℝ)/2) =
      ⟨"c1", "c2", "grp", "grp", some 1, 1/2, 1/4⟩ := by
    rw [mkRow, if_neg (by norm_num)]
    rw [hlog]
    norm_num
  refine ⟨?_, ?_, by norm_num⟩
  · rw [generate_network, show listPairs ["c1", "c2"] = [("c1", "c2")] from rfl]
    rw [networkRows, hdist, networkRows]
    simp only [Option.map_some']
    rw [hrow]
    rw [show sortNetworkMatrix [(⟨"c1", "c2", "grp", "grp", some 1, 1/2, 1/4⟩ : NetworkRow)] =
      [(⟨"c1", "c2", "grp", "grp", some 1, 1/2, 1/4⟩ : NetworkRow)] from by
        simp [sortNetworkMatrix, List.insertionSort, List.orderedInsert]]
  · rw [write_network_matrix,
      if_pos (show pyFloatGt (some (1 : ℝ)) (1/2) from by
        show (1 : ℝ)/2 < 1
        norm_num),
      write_network_matrix]

/-- C2 (amended): for every cutoff and matrix, `write_network_matrix` writes
exactly the rows whose column 4 — the log score, with the infinity sentinel
exceeding every cutoff — is strictly greater than the cutoff, keeping the
original row order; the squared-similarity column is not consulted. -/
theorem C2_amended_write_filters_on_logscore_column (m : List NetworkRow) (c : ℝ) :
    write_network_matrix m c = m.filter (fun r => decide (pyFloatGt r.logscore c)) ∧
      ∀ r : NetworkRow, r ∈ write_network_matrix m c ↔ r ∈ m ∧ pyFloatGt r.logscore c := by
  have hfil : write_network_matrix m c =
      m.filter (fun r => decide (pyFloatGt r.logscore c)) := by
    induction m with
    | nil => rfl
    | cons x xs ih =>
      rw [write_network_matrix, List.filter_cons]
      by_cases hx : pyFloatGt x.logscore c
      · rw [if_pos hx, ih, if_pos (by simpa using hx)]
      · rw [if_neg hx, ih, if_neg (by simpa using hx)]
  refine ⟨hfil, fun r => ?_⟩
  rw [hfil, List.mem_filter]
  simp

/-! ### Claim C3 -/

lemma charListLe_total : ∀ x y : List Char, charListLe x y = true ∨ charListLe y x = true := by
  intro x
  induction x with
  | nil => intro y; left; rfl
  | cons a as ih =>
    intro y
    cases y with
    | nil => right; rfl
    | cons b bs =>
      rw [charListLe, charListLe]
      by_cases hab : a = b
      · rw [if_pos hab, if_pos hab.symm]
        exact ih bs
      · rw [if_neg hab, if_neg (Ne.symm hab)]
        rcases lt_or_gt_of_ne hab with h | h
        · left; simpa using h
        · right; simpa using h

lemma charListLe_trans : ∀ x y z : List Char,
    charListLe x y = true → charListLe y z = true → charListLe x z = true := by
  intro x
  induction x with
  | nil => intro y z _ _; rfl
  | cons a as ih =>
    intro y z hxy hyz
    cases y with
    | nil => rw [charListLe] at hxy; cases hxy
    | cons b bs =>
      cases z with
      | nil => rw [charListLe] at hyz; cases hyz
      | cons c cs =>
        rw [charListLe] at hxy hyz ⊢
        by_cases hab : a = b
        · rw [if_pos hab] at hxy
          by_cases hbc : b = c
          · rw [if_pos hbc] at hyz
            rw [if_pos (hab.trans hbc)]
            exact ih bs cs hxy hyz
          · rw [if_neg hbc] at hyz
            have hbc' : b < c := by simpa using hyz
            have hac : a < c := hab ▸ hbc'
            rw [if_neg (by exact fun h => hbc (hab ▸ h))]
            simpa using hac
        · rw [if_neg hab] at hxy
          have hab' : a < b := by simpa using hxy
          by_cases hbc : b = c
          · rw [if_neg (by exact fun h => hab (h.trans hbc.symm))]
            simpa using (hbc ▸ hab')
          · rw [if_neg hbc] at hyz
            have hbc' : b < c := by simpa using hyz
            have hac : a < c := lt_trans hab' hbc'
            rw [if_neg (ne_of_lt hac)]
            simpa using hac

/-- C3 (counterexample): `generate_network` sorts by `str(logscore)`, not by
its numeric value.  With weights `Jaccardw = 9/4`, `DDSw = 0`,
`GKw = -1281/512` over three clusters (`c1`, `c2` identical, `c3`
different), the run produces log scores 10, 2, 2; string comparison puts
`"10.0"` before `"2.0"`, so the first returned row has log score 10 and the
second has log score 2, violating non-decreasing numeric order. -/
theorem C3_counterexample_sort_is_lexicographic_not_numeric :
    (∃ m : List NetworkRow,
      generate_network
          (distDispatch ⟨9/4, 0, -1281/512⟩ (fun _ => ⟨∅, fun _ => []⟩) (fun _ _ => none)
            (fun f => if f = ("out/c3.pfs") then ("b c ").data else ("a ").data)
            "out" DistMethod.domain_dist)
          ["c1", "c2", "c3"] (fun _ => "grp") = some m ∧
      m.map (fun r => r.logscore) = [some 10, some 2, some 2]) ∧
    ¬((10 : ℝ) ≤ 2) := by
  have hL1 : get_domain_list
      (fun f => if f = ("out/c3.pfs") then ("b c ").data else ("a ").data)
      ("out" ++ ("/") ++ "c1" ++ (".pfs")) = ["a", ""] := by decide
  have hL2 : get_domain_list
      (fun f => if f = ("out/c3.pfs") then ("b c ").data else ("a ").data)
      ("out" ++ ("/") ++ "c2" ++ (".pfs")) = ["a", ""] := by decide
  have hL3 : get_domain_list
      (fun f => if f = ("out/c3.pfs") then ("b c ").data else ("a ").data)
      ("out" ++ ("/") ++ "c3" ++ (".pfs")) = ["b", "c", ""] := by decide
  have hg1 : calculate_GK ["a", ""] ["a", ""] 4 = 1/2 := by
    rw [calculate_GK, if_pos (by decide)]
    simp only [show gkNs ["a", ""] ["a", ""] 4 = 0 from by decide,
      show gkNr ["a", ""] ["a", ""] 4 = 0 from by decide]
    norm_num
  have hg2 : calculate_GK ["", "a"] ["a", ""] 4 = 1/2 := by
    rw [calculate_GK, if_pos (by decide)]
    simp only [show gkNs ["", "a"] ["a", ""] 4 = 0 from by decide,
      show gkNr ["", "a"] ["a", ""] 4 = 0 from by decide]
    norm_num
  have hg3 : calculate_GK ["a", ""] ["b", "c", ""] 4 = 0 := by
    rw [calculate_GK, if_neg (by decide)]
  have hg4 : calculate_GK ["", "a"] ["b", "c", ""] 4 = 0 := by
    rw [calculate_GK, if_neg (by decide)]
  have hd12 : distanceBody ⟨9/4, 0, -1281/512⟩ ["a", ""] ["a", ""] 4 = (1 : ℝ)/1024 := by
    have hJ : jaccardModified ["a", ""] ["a", ""] = 1 := by
      rw [jaccardModified, show interCard ["a", ""] ["a", ""] = 2 from by decide]
      norm_num [show (["a", ""] : List String).toFinset.card = 2 from by decide,
        show ({"a", ""} : Finset String).card = 2 from by decide]
    have hD : ddsArg ["a", ""] ["a", ""] = 0 := by
      rw [ddsArg, show ddsNum ["a", ""] ["a", ""] = 0 from by decide]
      norm_num
    have hrev : (["a", ""] : List String).reverse = ["", "a"] := by decide
    simp only [distanceBody,
      if_neg (show ¬((["a", ""] : List String).length = 0 ∨
        (["a", ""] : List String).length = 0) from by norm_num),
      hrev, hJ, hD, hg1, hg2]
    rw [max_self]
    rw [if_neg (show ¬((1 : ℝ) - ((9/4 : ℚ) : ℝ) * ((1 : ℚ) : ℝ) -
        ((0 : ℚ) : ℝ) * Real.exp (-((0 : ℚ) : ℝ)) -
        ((-1281/512 : ℚ) : ℝ) * ((1/2 : ℚ) : ℝ) < 0) from by push_cast; norm_num)]
    push_cast
    norm_num
  have hd13 : distanceBody ⟨9/4, 0, -1281/512⟩ ["a", ""] ["b", "c", ""] 4 = (1 : ℝ)/4 := by
    have hJ : jaccardModified ["a", ""] ["b", "c", ""] = 1/3 := by
      rw [jaccardModified, show interCard ["a", ""] ["b", "c", ""] = 1 from by decide]
      norm_num [show (["a", ""] : List String).toFinset.card = 2 from by decide,
        show (["b", "c", ""] : List String).toFinset.card = 3 from by decide,
        show ({"a", ""} : Finset String).card = 2 from by decide,
        show ({"b", "c", ""} : Finset String).card = 3 from by decide]
    have hD : ddsArg ["a", ""] ["b", "c", ""] = 3/4 := by
      rw [ddsArg, show ddsNum ["a", ""] ["b", "c", ""] = 3 from by decide,
        show ddsDen ["a", ""] ["b", "c", ""] = 4 from by decide]
      norm_num
    have hrev : (["a", ""] : List String).reverse = ["", "a"] := by decide
    simp only [distanceBody,
      if_neg (show ¬((["a", ""] : List String).length = 0 ∨
        (["b", "c", ""] : List String).length = 0) from by norm_num),
      hrev, hJ, hD, hg3, hg4]
    rw [max_self]
    rw [if_neg (show ¬((1 : ℝ) - ((9/4 : ℚ) : ℝ) * ((1/3 : ℚ) : ℝ) -
        ((0 : ℚ) : ℝ) * Real.exp (-((3/4 : ℚ) : ℝ)) -
        ((-1281/512 : ℚ) : ℝ) * ((0 : ℚ) : ℝ) < 0) from by push_cast; norm_num)]
    push_cast
    norm_num
  have hdist12 : distDispatch ⟨9/4, 0, -1281/512⟩ (fun _ => ⟨∅, fun _ => []⟩)
      (fun _ _ => none)
      (fun f => if f = ("out/c3.pfs") then ("b c ").data else ("a ").data)
      "out" DistMethod.domain_dist "c1" "c2" = some ((1 : ℝ)/1024) := by
    simp only [distDispatch]
    rw [hL1, hL2, Distance_modified_zero_eq, hd12]
  have hdist13 : distDispatch ⟨9/4, 0, -1281/512⟩ (fun _ => ⟨∅, fun _ => []⟩)
      (fun _ _ => none)
      (fun f => if f = ("out/c3.pfs") then ("b c ").data else ("a ").data)
      "out" DistMethod.domain_dist "c1" "c3" = some ((1 : ℝ)/4) := by
    simp only [distDispatch]
    rw [hL1, hL3, Distance_modified_zero_eq, hd13]
  have hdist23 : distDispatch ⟨9/4, 0, -1281/512⟩ (fun _ => ⟨∅, fun _ => []⟩)
      (fun _ _ => none)
      (fun f => if f = ("out/c3.pfs") then ("b c ").data else ("a ").data)
      "out" DistMethod.domain_dist "c2" "c3" = some ((1 : ℝ)/4) := by
    simp only [distDispatch]
    rw [hL2, hL3, Distance_modified_zero_eq, hd13]
  have hlog10 : -(Real.logb 2 ((1 : ℝ)/1024)) = 10 := by
    rw [show (1 : ℝ)/1024 = ((2 : ℝ) ^ (10 : ℕ))⁻¹ from by norm_num, logb_two_pow_inv 10]
    norm_num
  have hlog2 : -(Real.logb 2 ((1 : ℝ)/4)) = 2 := by
    rw [show (1 : ℝ)/4 = ((2 : ℝ) ^ (2 : ℕ))⁻¹ from by norm_num, logb_two_pow_inv 2]
    norm_num
  have hrow12 : mkRow (fun _ => "grp") "c1" "c2" ((1 : ℝ)/1024) =
      ⟨"c1", "c2", "grp", "grp", some 10, 1/1024, (1 - (1 : ℝ)/1024) ^ 2⟩ := by
    rw [mkRow, if_neg (by norm_num), hlog10]
  have hrow13 : mkRow (fun _ => "grp") "c1" "c3" ((1 : ℝ)/4) =
      ⟨"c1", "c3", "grp", "grp", some 2, 1/4, (1 - (1 : ℝ)/4) ^ 2⟩ := by
    rw [mkRow, if_neg (by norm_num), hlog2]
  have hrow23 : mkRow (fun _ => "grp") "c2" "c3" ((1 : ℝ)/4) =
      ⟨"c2", "c3", "grp", "grp", some 2, 1/4, (1 - (1 : ℝ)/4) ^ 2⟩ := by
    rw [mkRow, if_neg (by norm_num), hlog2]
  have hk10 : pyFloatRepr (some (10 : ℝ)) = ['1', '0', '.', '0'] := by
    rw [show (10 : ℝ) = ((10 : ℕ) : ℝ) from by norm_num, pyFloatRepr_coe_nat]
    decide
  have hk2 : pyFloatRepr (some (2 : ℝ)) = ['2', '.', '0'] := by
    rw [show (2 : ℝ) = ((2 : ℕ) : ℝ) from by norm_num, pyFloatRepr_coe_nat]
    decide
  refine ⟨⟨[⟨"c1", "c2", "grp", "grp", some 10, 1/1024, (1 - (1 : ℝ)/1024) ^ 2⟩,
       ⟨"c1", "c3", "grp", "grp", some 2, 1/4, (1 - (1 : ℝ)/4) ^ 2⟩,
       ⟨"c2", "c3", "grp", "grp", some 2, 1/4, (1 - (1 : ℝ)/4) ^ 2⟩], ?_, by simp⟩,
    by norm_num⟩
  · rw [generate_network,
      show listPairs ["c1", "c2", "c3"] = [("c1", "c2"), ("c1", "c3"), ("c2", "c3")] from rfl]
    rw [networkRows, hdist12, networkRows, hdist13, networkRows, hdist23, networkRows]
    simp only [Option.map_some']
    rw [hrow12, hrow13, hrow23]
    rw [show sortNetworkMatrix
        [⟨"c1", "c2", "grp", "grp", some 10, 1/1024, (1 - (1 : ℝ)/1024) ^ 2⟩,
         ⟨"c1", "c3", "grp", "grp", some 2, 1/4, (1 - (1 : ℝ)/4) ^ 2⟩,
         ⟨"c2", "c3", "grp", "grp", some 2, 1/4, (1 - (1 : ℝ)/4) ^ 2⟩] =
        [⟨"c1", "c2", "grp", "grp", some 10, 1/1024, (1 - (1 : ℝ)/1024) ^ 2⟩,
         ⟨"c1", "c3", "grp", "grp", some 2, 1/4, (1 - (1 : ℝ)/4) ^ 2⟩,
         ⟨"c2", "c3", "grp", "grp", some 2, 1/4, (1 - (1 : ℝ)/4) ^ 2⟩] from by
      simp only [sortNetworkMatrix, List.insertionSort, List.orderedInsert]
      simp [hk10, hk2, show charListLe ['2', '.', '0'] ['2', '.', '0'] = true from by decide,
        show charListLe ['1', '0', '.', '0'] ['2', '.', '0'] = true from by decide]]

/-- C3 (amended): the matrix returned by `generate_network` is sorted
non-decreasingly in the lexicographic byte order of the *string rendering*
of the log score (Python compares the `str(logscore)` keys), with ties kept
stable; this is not the numeric order (see the counterexample). -/
theorem C3_amended_sorted_by_logscore_string (dist : String → String → Option ℝ)
    (bgc_list : List String) (grp : String → String) (m : List NetworkRow)
    (h : generate_network dist bgc_list grp = some m) :
    m.Sorted (fun a b =>
      charListLe (pyFloatRepr a.logscore) (pyFloatRepr b.logscore) = true) := by
  rw [generate_network] at h
  rw [Option.map_eq_some'] at h
  obtain ⟨rows, _, hm⟩ := h
  rw [← hm, sortNetworkMatrix]
  haveI : IsTotal NetworkRow (fun a b =>
      charListLe (pyFloatRepr a.logscore) (pyFloatRepr b.logscore) = true) :=
    ⟨fun a b => charListLe_total _ _⟩
  haveI : IsTrans NetworkRow (fun a b =>
      charListLe (pyFloatRepr a.logscore) (pyFloatRepr b.logscore) = true) :=
    ⟨fun a b c => charListLe_trans _ _ _⟩
  exact List.sorted_insertionSort _ _

/-- Witness for the amended C3 at a concrete run. -/
theorem C3_amended_sorted_by_logscore_string_witness :
    ([] : List NetworkRow).Sorted (fun a b =>
      charListLe (pyFloatRepr a.logscore) (pyFloatRepr b.logscore) = true) :=
  C3_amended_sorted_by_logscore_string (fun _ _ => some 0) [] (fun _ => "grp") [] rfl

end BGCNet
